import Mathlib

/-!
Verification development for an IMAP4rev1 codec.

The development shallowly embeds two components:

* the fragmenting encoder of `imap-codec/src/codec/encode.rs`
  (`EncodeContext`, `Fragment`, `Encoded`, and one encoding function per
  grammar production), and
* the stateful stream decoder of `src/tokio/mod.rs` (`ImapServerCodec`
  with its `find_crlf_inclusive` / `parse_literal` helpers and `decode`).

Bytes are represented as `Nat` (each in `0..256`), byte buffers as
`List Nat`.  Rust `Vec<T>` becomes `List T`; `Option<T>` becomes
`Option T`; fallible results become `Except`.  The data-model types of
the `imap-types` crate are not part of the sources; their shapes are
reconstructed from the specification together with the way the encoder
destructures them, and such definitions are marked
`Modelled from the spec:` in their doc comments.
-/

namespace ImapCodec

/-- Bytes of a Lean string, used to spell byte-string constants from
the Rust sources.  All such constants are ASCII, where the code points
coincide with the UTF-8 bytes. -/
def bytesOf (s : String) : List Nat :=
  s.data.map Char.toNat

/-- Decimal digits of a natural number, as ASCII bytes (mirrors the
`Display` rendering used by `write!` for Rust unsigned integers). -/
def natDecimal (n : Nat) : List Nat :=
  (Nat.toDigits 10 n).map Char.toNat

-- ---------------------------------------------------------------------
-- Fragments and the encode context (imap-codec/src/codec/encode.rs)
-- ---------------------------------------------------------------------

/-- Literal transmission mode (`LiteralMode`, `ext_literal` feature). -/
inductive LiteralMode : Type
  | sync
  | nonSync
deriving DecidableEq, Repr

/-- The intended action of a client or server (`Fragment`). -/
inductive Fragment : Type
  | line (data : List Nat)
  | literal (data : List Nat) (mode : LiteralMode)
deriving DecidableEq, Repr

/-- Byte payload of a fragment (the `data` field of either variant). -/
def Fragment.data : Fragment → List Nat
  | .line d => d
  | .literal d _ => d

/-- Append buffer plus ordered fragment list (`EncodeContext`). -/
structure EncodeContext : Type where
  accumulator : List Nat
  items : List Fragment
deriving DecidableEq, Repr

/-- Fresh context (`EncodeContext::new`). -/
def EncodeContext.new : EncodeContext :=
  { accumulator := [], items := [] }

/-- The `Write` impl for `EncodeContext`: bytes are appended to the
accumulator (`write` / `write_all` never fail on the in-memory sink). -/
def EncodeContext.write (ctx : EncodeContext) (buf : List Nat) : EncodeContext :=
  { ctx with accumulator := ctx.accumulator ++ buf }

/-- Flush the accumulator as a `Line` fragment (`push_line`). -/
def EncodeContext.push_line (ctx : EncodeContext) : EncodeContext :=
  { accumulator := [], items := ctx.items ++ [Fragment.line ctx.accumulator] }

/-- Flush the accumulator as a `Literal` fragment (`push_literal`). -/
def EncodeContext.push_literal (ctx : EncodeContext) (mode : LiteralMode) : EncodeContext :=
  { accumulator := [], items := ctx.items ++ [Fragment.literal ctx.accumulator mode] }

/-- Final fragment list: any remaining accumulator content becomes a
trailing `Line` fragment (`into_items`). -/
def EncodeContext.into_items (ctx : EncodeContext) : List Fragment :=
  if ctx.accumulator.isEmpty then ctx.items
  else ctx.items ++ [Fragment.line ctx.accumulator]

/-- Encoder artifact (`Encoded`): the fragments of one message. -/
structure Encoded : Type where
  items : List Fragment
deriving DecidableEq, Repr

/-- Dump the encoded data without being guided by fragments
(`Encoded::dump`): payloads of all fragments, concatenated in order. -/
def Encoded.dump (e : Encoded) : List Nat :=
  e.items.foldl (fun out f => out ++ f.data) []

/-- One step of the `Iterator` impl for `Encoded`: remove and return the
first fragment, if any (`items.remove(0)`). -/
def Encoded.next (e : Encoded) : Option (Fragment × Encoded) :=
  match e.items with
  | [] => none
  | f :: rest => some (f, ⟨rest⟩)

/-- All fragments delivered by iterating `next` until exhaustion, in
delivery order. -/
def Encoded.collectStream (e : Encoded) : List Fragment :=
  match h : e.next with
  | none => []
  | some (f, e2) => f :: e2.collectStream
termination_by e.items.length
decreasing_by
  simp only [Encoded.next] at h
  cases e with
  | mk items =>
    cases items with
    | nil => simp at h
    | cons a rest =>
      simp only [Option.some.injEq, Prod.mk.injEq] at h
      simp [← h.2]

/-- Concatenation of the byte payloads of a fragment sequence, in
order. -/
def concatData (fs : List Fragment) : List Nat :=
  fs.foldl (fun out f => out ++ f.data) []

-- ---------------------------------------------------------------------
-- Data model (string family and friends)
-- ---------------------------------------------------------------------

/-- Modelled from the spec: `Tag` (printable ASCII, no whitespace, no
reserved chars; invariants enforced at construction).  The encoder only
reads the raw inner bytes, so the model keeps just those. -/
structure Tag : Type where
  inner : List Nat
deriving DecidableEq, Repr

/-- Modelled from the spec: `Atom` (at least one byte, restricted
charset); only the raw inner bytes are observed by the encoder. -/
structure Atom : Type where
  inner : List Nat
deriving DecidableEq, Repr

/-- Modelled from the spec: `AtomExt` (atom with a broader charset). -/
structure AtomExt : Type where
  inner : List Nat
deriving DecidableEq, Repr

/-- Modelled from the spec: `Quoted` (printable text, no CR/LF). -/
structure Quoted : Type where
  inner : List Nat
deriving DecidableEq, Repr

/-- Modelled from the spec: `Literal` — arbitrary bytes with, under the
`ext_literal` extension, a transmission mode. -/
structure Literal : Type where
  data : List Nat
  mode : LiteralMode
deriving DecidableEq, Repr

/-- Modelled from the spec: `IString` is `Quoted ∪ Literal`. -/
inductive IString : Type
  | literal (val : Literal)
  | quoted (val : Quoted)
deriving DecidableEq, Repr

/-- Modelled from the spec: `AString` is `Atom ∪ IString`; the atom
variant of the source holds an `AtomExt`. -/
inductive AString : Type
  | atom (a : AtomExt)
  | string (s : IString)
deriving DecidableEq, Repr

/-- Modelled from the spec: `NString` is an optional `IString`
(`NIL` when absent). -/
structure NString : Type where
  val : Option IString
deriving DecidableEq, Repr

/-- Modelled from the spec: `Text` (non-empty printable, no CR/LF). -/
structure Text : Type where
  inner : List Nat
deriving DecidableEq, Repr

/-- Modelled from the spec: `Charset` is an atom or a quoted string. -/
inductive Charset : Type
  | atom (a : Atom)
  | quoted (q : Quoted)
deriving DecidableEq, Repr

/-- Modelled from the spec: `ListCharString`, the `LIST` wildcard token
form; raw bytes. -/
structure ListCharString : Type where
  raw : List Nat
deriving DecidableEq, Repr

/-- Modelled from the spec: `MailboxOther` wraps the stored `AString`
form of a non-INBOX mailbox. -/
structure MailboxOther : Type where
  inner : AString
deriving DecidableEq, Repr

/-- Modelled from the spec: `Mailbox` is `INBOX` or another name. -/
inductive Mailbox : Type
  | inbox
  | other (o : MailboxOther)
deriving DecidableEq, Repr

/-- Modelled from the spec: `ListMailbox` is a `LIST` token or a
string. -/
inductive ListMailbox : Type
  | token (lcs : ListCharString)
  | string (istr : IString)
deriving DecidableEq, Repr

/-- Modelled from the spec: `QuotedChar` — a single character with the
two specials escaped; the model keeps the byte. -/
structure QuotedChar : Type where
  inner : Nat
deriving DecidableEq, Repr

/-- Modelled from the spec: `CodeOther` — raw bytes of an unknown
status code. -/
structure CodeOther : Type where
  inner : List Nat
deriving DecidableEq, Repr

/-- Secret wrapper (`imap-types/src/security.rs`): holds the value,
exposes it only through an explicit accessor. -/
structure Secret (α : Type) : Type where
  inner : α
deriving DecidableEq, Repr

/-- Explicit accessor for the wrapped value (`expose_secret`, called
`declassify` at the encoder's use sites). -/
def Secret.declassify {α : Type} (s : Secret α) : α :=
  s.inner

/-- The `Debug` impl for `Secret` renders the fixed string
`[[REDACTED]]`, ignoring the wrapped value. -/
def Secret.debug_fmt {α : Type} (_ : Secret α) : String :=
  "[[REDACTED]]"

-- ---------------------------------------------------------------------
-- Flags, sequences, dates
-- ---------------------------------------------------------------------

/-- Modelled from the spec: an extension flag, encoded `\<atom>`. -/
structure FlagExtension : Type where
  inner : List Nat
deriving DecidableEq, Repr

/-- Modelled from the spec: `Flag` — five system flags, extension
flags, and keywords. -/
inductive Flag : Type
  | seen
  | answered
  | flagged
  | deleted
  | draft
  | extensionFlag (other : FlagExtension)
  | keyword (a : Atom)
deriving DecidableEq, Repr

/-- Modelled from the spec: `FlagFetch` — a flag or `\Recent`. -/
inductive FlagFetch : Type
  | flag (f : Flag)
  | recent
deriving DecidableEq, Repr

/-- Modelled from the spec: `FlagPerm` — a flag or the `\*` marker. -/
inductive FlagPerm : Type
  | flag (f : Flag)
  | allowNewKeywords
deriving DecidableEq, Repr

/-- Modelled from the spec: `FlagNameAttribute` of LIST/LSUB items. -/
inductive FlagNameAttribute : Type
  | noinferiors
  | noselect
  | marked
  | unmarked
  | extensionAttr (a : Atom)
deriving DecidableEq, Repr

/-- Modelled from the spec: `StoreType` of a STORE command. -/
inductive StoreType : Type
  | add
  | remove
  | replace
deriving DecidableEq, Repr

/-- Modelled from the spec: `StoreResponse` of a STORE command. -/
inductive StoreResponse : Type
  | answer
  | silent
deriving DecidableEq, Repr

/-- Modelled from the spec: `SeqOrUid` — positive integer or `*`. -/
inductive SeqOrUid : Type
  | value (number : Nat)
  | asterisk
deriving DecidableEq, Repr

/-- Modelled from the spec: `Sequence` — single number or range. -/
inductive Sequence : Type
  | single (seqNo : SeqOrUid)
  | range (from_ : SeqOrUid) (to_ : SeqOrUid)
deriving DecidableEq, Repr

/-- Modelled from the spec: `SequenceSet` — non-empty comma-separated
list of sequences (non-emptiness enforced at construction). -/
structure SequenceSet : Type where
  seqs : List Sequence
deriving DecidableEq, Repr

/-- Modelled from the spec: English month abbreviations of the date
encoding. -/
inductive Month : Type
  | jan | feb | mar | apr | may | jun | jul | aug | sep | oct | nov | dec
deriving DecidableEq, Repr

/-- ASCII bytes of the three-letter English month abbreviation. -/
def Month.abbrevBytes : Month → List Nat
  | .jan => bytesOf "Jan"
  | .feb => bytesOf "Feb"
  | .mar => bytesOf "Mar"
  | .apr => bytesOf "Apr"
  | .may => bytesOf "May"
  | .jun => bytesOf "Jun"
  | .jul => bytesOf "Jul"
  | .aug => bytesOf "Aug"
  | .sep => bytesOf "Sep"
  | .oct => bytesOf "Oct"
  | .nov => bytesOf "Nov"
  | .dec => bytesOf "Dec"

/-- Modelled from the spec: `NaiveDate` — a calendar date, encoded
`"DD-Mon-YYYY"` (the chrono formatting machinery is not in the
sources). -/
structure NaiveDate : Type where
  day : Nat
  month : Month
  year : Nat
deriving DecidableEq, Repr

/-- Modelled from the spec: `DateTime` — date, time and fixed offset,
encoded `"DD-Mon-YYYY HH:MM:SS ±HHMM"`. -/
structure DateTime : Type where
  date : NaiveDate
  hour : Nat
  minute : Nat
  second : Nat
  offsetNegative : Bool
  offsetHours : Nat
  offsetMinutes : Nat
deriving DecidableEq, Repr

/-- Zero-padded decimal rendering with a minimum width, as produced by
chrono's padded format specifiers. -/
def padDecimal (width n : Nat) : List Nat :=
  let ds := natDecimal n
  List.replicate (width - ds.length) 48 ++ ds


-- ---------------------------------------------------------------------
-- Search keys, fetch items, sections
-- ---------------------------------------------------------------------

/-- Modelled from the spec: `SearchKey` — the recursive SEARCH
criteria. -/
inductive SearchKey : Type
  | all
  | answered
  | bcc (astring : AString)
  | before (date : NaiveDate)
  | body (astring : AString)
  | cc (astring : AString)
  | deleted
  | flagged
  | from (astring : AString)
  | keyword (flagKeyword : Atom)
  | new
  | old
  | on (date : NaiveDate)
  | recent
  | seen
  | since (date : NaiveDate)
  | subject (astring : AString)
  | text (astring : AString)
  | to (astring : AString)
  | unanswered
  | undeleted
  | unflagged
  | unkeyword (flagKeyword : Atom)
  | unseen
  | draft
  | header (headerFldName : AString) (astring : AString)
  | larger (number : Nat)
  | not (searchKey : SearchKey)
  | or (searchKeyA : SearchKey) (searchKeyB : SearchKey)
  | sentBefore (date : NaiveDate)
  | sentOn (date : NaiveDate)
  | sentSince (date : NaiveDate)
  | smaller (number : Nat)
  | uid (sequenceSet : SequenceSet)
  | undraft
  | sequenceSet (s : SequenceSet)
  | and (searchKeys : List SearchKey)

/-- Modelled from the spec: `Part` — dot-joined nonzero positive
integers locating a MIME sub-body. -/
structure Part : Type where
  numbers : List Nat
deriving DecidableEq, Repr

/-- Modelled from the spec: `Section` — MIME locator of a FETCH
body item. -/
inductive Section : Type
  | part (p : Part)
  | header (maybePart : Option Part)
  | headerFields (maybePart : Option Part) (headerList : List AString)
  | headerFieldsNot (maybePart : Option Part) (headerList : List AString)
  | text (maybePart : Option Part)
  | mime (p : Part)
deriving DecidableEq, Repr

/-- Modelled from the spec: `MessageDataItemName` — names of FETCH
data items. -/
inductive MessageDataItemName : Type
  | body
  | bodyExt (sectionSpec : Option Section) (partialRange : Option (Nat × Nat)) (peek : Bool)
  | bodyStructure
  | envelope
  | flags
  | internalDate
  | rfc822
  | rfc822Header
  | rfc822Size
  | rfc822Text
  | uid
deriving DecidableEq, Repr

/-- Modelled from the spec: FETCH `Macro` shorthand. -/
inductive Macro : Type
  | all
  | fast
  | full
deriving DecidableEq, Repr

/-- Modelled from the spec: a FETCH request is a macro or an item-name
list. -/
inductive MacroOrMessageDataItemNames : Type
  | macroItem (m : Macro)
  | messageDataItemNames (itemNames : List MessageDataItemName)
deriving DecidableEq, Repr

/-- Modelled from the spec: `AuthMechanism` (its `Display` impl is not
in the sources); the named mechanisms render as their uppercase name,
other mechanisms as their raw atom bytes. -/
inductive AuthMechanism : Type
  | plain
  | login
  | other (raw : List Nat)
deriving DecidableEq, Repr

/-- Modelled from the spec: a capability name (its `Display` impl is
not in the sources); rendered as its raw atom bytes. -/
structure Capability : Type where
  raw : List Nat
deriving DecidableEq, Repr

/-- Modelled from the spec: `CompressionAlgorithm` (encoder not in the
sources); rendered as its raw algorithm name. -/
structure CompressionAlgorithm : Type where
  raw : List Nat
deriving DecidableEq, Repr

/-- Modelled from the spec: a SETQUOTA resource/limit pair (the quota
encoding rules are not in the sources); spec depicts `"(" quotas ")"`
with space-separated `resource limit` pairs. -/
structure QuotaSet : Type where
  resource : List Nat
  limit : Nat
deriving DecidableEq, Repr

/-- Modelled from the spec: a QUOTA response resource triple
(`resource usage limit`; encoding rules not in the sources). -/
structure QuotaGet : Type where
  resource : List Nat
  usage : Nat
  limit : Nat
deriving DecidableEq, Repr

/-- Modelled from the spec: `StatusDataItemName` of a STATUS command. -/
inductive StatusDataItemName : Type
  | messages
  | recent
  | uidNext
  | uidValidity
  | unseen
  | deleted
  | deletedStorage
  | highestModSeq
deriving DecidableEq, Repr

/-- Modelled from the spec: `StatusDataItem` of a STATUS response. -/
inductive StatusDataItem : Type
  | messages (count : Nat)
  | recent (count : Nat)
  | uidNext (next : Nat)
  | uidValidity (identifier : Nat)
  | unseen (count : Nat)
  | deleted (count : Nat)
  | deletedStorage (count : Nat)
deriving DecidableEq, Repr

-- ---------------------------------------------------------------------
-- Commands
-- ---------------------------------------------------------------------

/-- Modelled from the spec: `CommandBody` — the ~30 command verbs with
their operands, all protocol extensions present. -/
inductive CommandBody : Type
  | capability
  | noop
  | logout
  | startTLS
  | authenticate (mechanism : AuthMechanism) (initialResponse : Option (Secret (List Nat)))
  | login (username : AString) (password : Secret AString)
  | select (mailbox : Mailbox)
  | unselect
  | examine (mailbox : Mailbox)
  | create (mailbox : Mailbox)
  | delete (mailbox : Mailbox)
  | rename (from_ : Mailbox) (to_ : Mailbox)
  | subscribe (mailbox : Mailbox)
  | unsubscribe (mailbox : Mailbox)
  | list (reference : Mailbox) (mailboxWildcard : ListMailbox)
  | lsub (reference : Mailbox) (mailboxWildcard : ListMailbox)
  | status (mailbox : Mailbox) (itemNames : List StatusDataItemName)
  | append (mailbox : Mailbox) (flags : List Flag) (date : Option DateTime) (message : Literal)
  | check
  | close
  | expunge
  | search (charset : Option Charset) (criteria : SearchKey) (uid : Bool)
  | fetch (sequenceSet : SequenceSet) (macroOrItemNames : MacroOrMessageDataItemNames) (uid : Bool)
  | store (sequenceSet : SequenceSet) (kind : StoreType) (response : StoreResponse)
      (flags : List Flag) (uid : Bool)
  | copy (sequenceSet : SequenceSet) (mailbox : Mailbox) (uid : Bool)
  | idle
  | enable (capabilities : List Capability)
  | compress (algorithm : CompressionAlgorithm)
  | getQuota (root : AString)
  | getQuotaRoot (mailbox : Mailbox)
  | setQuota (root : AString) (quotas : List QuotaSet)
  | move (sequenceSet : SequenceSet) (mailbox : Mailbox) (uid : Bool)

/-- Modelled from the spec: a `Command` is a tag plus a body. -/
structure Command : Type where
  tag : Tag
  body : CommandBody

/-- Modelled from the spec: `AuthenticateData` — a base64 continuation
payload, wrapped as a secret. -/
structure AuthenticateData : Type where
  payload : Secret (List Nat)
deriving DecidableEq, Repr

-- ---------------------------------------------------------------------
-- Responses
-- ---------------------------------------------------------------------

/-- Modelled from the spec: `GreetingKind` — OK, PREAUTH or BYE. -/
inductive GreetingKind : Type
  | ok
  | preAuth
  | bye
deriving DecidableEq, Repr

/-- Modelled from the spec: `Code` — bracketed status codes of a
status response or greeting. -/
inductive Code : Type
  | alert
  | badCharset (allowed : List Charset)
  | capability (caps : List Capability)
  | parse
  | permanentFlags (flags : List FlagPerm)
  | readOnly
  | readWrite
  | tryCreate
  | uidNext (next : Nat)
  | uidValidity (validity : Nat)
  | unseen (seq : Nat)
  | referral (url : List Nat)
  | compressionActive
  | overQuota
  | tooBig
  | other (unknown : CodeOther)
deriving DecidableEq, Repr

/-- Modelled from the spec: a `Greeting` — kind, optional code, text. -/
structure Greeting : Type where
  kind : GreetingKind
  code : Option Code
  text : Text
deriving DecidableEq, Repr

/-- Modelled from the spec: a `Status` response — OK/NO/BAD with an
optional tag, or an untagged BYE. -/
inductive Status : Type
  | ok (tag : Option Tag) (code : Option Code) (text : Text)
  | no (tag : Option Tag) (code : Option Code) (text : Text)
  | bad (tag : Option Tag) (code : Option Code) (text : Text)
  | bye (code : Option Code) (text : Text)
deriving DecidableEq, Repr

/-- Modelled from the spec: an RFC 2822 address structure
(parenthesized 4-tuple of NStrings). -/
structure Address : Type where
  name : NString
  adl : NString
  mailbox : NString
  host : NString
deriving DecidableEq, Repr

/-- Modelled from the spec: the envelope structure — date, subject,
six address lists, in-reply-to and message-id. -/
structure Envelope : Type where
  date : NString
  subject : NString
  from_ : List Address
  sender : List Address
  replyTo : List Address
  to_ : List Address
  cc : List Address
  bcc : List Address
  inReplyTo : NString
  messageId : NString
deriving DecidableEq, Repr

/-- Modelled from the spec: `BodyExtension` — NString, number, or
nested list. -/
inductive BodyExtension : Type
  | nstring (n : NString)
  | number (n : Nat)
  | list (l : List BodyExtension)

/-- Modelled from the spec: basic body fields common to all body
kinds. -/
structure BasicFields : Type where
  parameterList : List (IString × IString)
  id : NString
  description : NString
  contentTransferEncoding : IString
  size : Nat
deriving DecidableEq, Repr

/-- Modelled from the spec: `Location` of a body extension chain. -/
structure Location : Type where
  location : NString
  extensions : List BodyExtension

/-- Modelled from the spec: `Language` chain of a body extension. -/
structure Language : Type where
  language : List NString
  tail : Option Location

/-- Modelled from the spec: `Disposition` chain of a body extension. -/
structure Disposition : Type where
  disposition : Option (IString × List (IString × IString))
  tail : Option Language

/-- Modelled from the spec: single-part extension data (md5 then
optional disposition chain). -/
structure SinglePartExtensionData : Type where
  md5 : NString
  tail : Option Disposition

/-- Modelled from the spec: multi-part extension data (parameter list
then optional disposition chain). -/
structure MultiPartExtensionData : Type where
  parameterList : List (IString × IString)
  tail : Option Disposition

mutual

/-- Modelled from the spec: a recursive body structure — single part
or multipart with non-empty children. -/
inductive BodyStructure : Type
  | single (body : Body) (extensionData : Option SinglePartExtensionData)
  | multi (bodies : List BodyStructure) (subtype : IString)
      (extensionData : Option MultiPartExtensionData)

/-- Modelled from the spec: one body — basic fields plus
kind-specific fields. -/
inductive Body : Type
  | mk (basic : BasicFields) (specific : SpecificFields)

/-- Modelled from the spec: kind-specific body fields (basic media,
embedded message, or text). -/
inductive SpecificFields : Type
  | basicKind (type_ : IString) (subtype : IString)
  | message (envelope : Envelope) (bodyStructure : BodyStructure) (numberOfLines : Nat)
  | textKind (subtype : IString) (numberOfLines : Nat)

end

/-- Modelled from the spec: `MessageDataItem` — one FETCH response
data item. -/
inductive MessageDataItem : Type
  | bodyExt (sectionSpec : Option Section) (origin : Option Nat) (data : NString)
  | body (b : BodyStructure)
  | bodyStructure (b : BodyStructure)
  | envelope (e : Envelope)
  | flags (fs : List FlagFetch)
  | internalDate (datetime : DateTime)
  | rfc822 (n : NString)
  | rfc822Header (n : NString)
  | rfc822Size (size : Nat)
  | rfc822Text (n : NString)
  | uid (uid : Nat)

/-- Modelled from the spec: `Data` — untagged server data responses. -/
inductive Data : Type
  | capability (caps : List Capability)
  | list (items : List FlagNameAttribute) (delimiter : Option QuotedChar) (mailbox : Mailbox)
  | lsub (items : List FlagNameAttribute) (delimiter : Option QuotedChar) (mailbox : Mailbox)
  | status (mailbox : Mailbox) (items : List StatusDataItem)
  | search (seqs : List Nat)
  | flags (fs : List FlagFetch)
  | exists_ (count : Nat)
  | recent (count : Nat)
  | expunge (msg : Nat)
  | fetch (seq : Nat) (items : List MessageDataItem)
  | enabled (capabilities : List Capability)
  | quota (root : AString) (quotas : List QuotaGet)
  | quotaRoot (mailbox : Mailbox) (roots : List AString)

/-- Modelled from the spec: the basic continuation request — optional
code and text (accessors `code()` / `text()`). -/
structure ContinueBasic : Type where
  code : Option Code
  text : Text
deriving DecidableEq, Repr

/-- Modelled from the spec: `Continue` — a basic or base64
continuation request. -/
inductive Continue : Type
  | basic (b : ContinueBasic)
  | base64 (data : List Nat)
deriving DecidableEq, Repr

/-- Modelled from the spec: a `Response` — status, data, or
continuation request. -/
inductive Response : Type
  | status (s : Status)
  | data (d : Data)
  | continueReq (c : Continue)

-- ---------------------------------------------------------------------
-- Encoder utilities (mod utils of encode.rs)
-- ---------------------------------------------------------------------

/-- Write the elements with `sep` between consecutive elements
(`join_serializable`); empty lists produce no bytes.  The element
encoder is passed explicitly in place of the Rust trait dispatch. -/
def joinSerializable {α : Type} (enc : α → EncodeContext → EncodeContext) :
    List α → List Nat → EncodeContext → EncodeContext
  | [], _, ctx => ctx
  | [x], _, ctx => enc x ctx
  | x :: y :: rest, sep, ctx => joinSerializable enc (y :: rest) sep ((enc x ctx).write sep)

/-- Write `NIL` for an empty list, otherwise the parenthesized
`sep`-joined elements (`List1OrNil`). -/
def list1OrNil {α : Type} (enc : α → EncodeContext → EncodeContext)
    (l : List α) (sep : List Nat) (ctx : EncodeContext) : EncodeContext :=
  match l with
  | [] => ctx.write (bytesOf "NIL")
  | _ :: _ => (joinSerializable enc l sep (ctx.write (bytesOf "("))).write (bytesOf ")")

/-- Write `NIL` for an empty pair list, otherwise the parenthesized
space-joined `attribute value` pairs (`List1AttributeValueOrNil`). -/
def list1AttributeValueOrNil {α : Type} (enc : α → EncodeContext → EncodeContext)
    (l : List (α × α)) (ctx : EncodeContext) : EncodeContext :=
  match l with
  | [] => ctx.write (bytesOf "NIL")
  | _ :: _ =>
    (joinSerializable (fun (kv : α × α) c => enc kv.2 ((enc kv.1 c).write (bytesOf " ")))
      l (bytesOf " ") (ctx.write (bytesOf "("))).write (bytesOf ")")

-- ---------------------------------------------------------------------
-- Leaf encoders
-- ---------------------------------------------------------------------

/-- The `Encoder` impl for `u32`: decimal digits. -/
def encodeU32 (n : Nat) (ctx : EncodeContext) : EncodeContext :=
  ctx.write (natDecimal n)

/-- The `Encoder` impl for `u64`: decimal digits. -/
def encodeU64 (n : Nat) (ctx : EncodeContext) : EncodeContext :=
  ctx.write (natDecimal n)

/-- The `Encoder` impl for `NonZeroU32`: decimal digits. -/
def encodeNonZeroU32 (n : Nat) (ctx : EncodeContext) : EncodeContext :=
  ctx.write (natDecimal n)

/-- The `Encoder` impl for `Tag`: the raw inner bytes. -/
def Tag.encode_ctx (t : Tag) (ctx : EncodeContext) : EncodeContext :=
  ctx.write t.inner

/-- The `Encoder` impl for `Atom`: the raw inner bytes. -/
def Atom.encode_ctx (a : Atom) (ctx : EncodeContext) : EncodeContext :=
  ctx.write a.inner

/-- The `Encoder` impl for `AtomExt`: the raw inner bytes. -/
def AtomExt.encode_ctx (a : AtomExt) (ctx : EncodeContext) : EncodeContext :=
  ctx.write a.inner

/-- Modelled from the spec: `escape_quoted` of `imap_types::utils`
(not in the sources): backslash-escape `\` and `"`, pass all other
bytes through. -/
def escape_quoted (bs : List Nat) : List Nat :=
  (bs.map (fun b => if b = 92 then [92, 92] else if b = 34 then [92, 34] else [b])).flatten

/-- The `Encoder` impl for `Quoted`: `"` + escaped inner + `"`. -/
def Quoted.encode_ctx (q : Quoted) (ctx : EncodeContext) : EncodeContext :=
  ctx.write ([34] ++ escape_quoted q.inner ++ [34])

/-- The `Encoder` impl for `Literal` (`ext_literal` feature): write the
announcement and CRLF, push a `Line`, write the literal bytes, push a
`Literal` carrying the mode. -/
def Literal.encode_ctx (l : Literal) (ctx : EncodeContext) : EncodeContext :=
  let announced :=
    match l.mode with
    | .sync => ctx.write ([123] ++ natDecimal l.data.length ++ [125] ++ bytesOf "\r\n")
    | .nonSync => ctx.write ([123] ++ natDecimal l.data.length ++ [43, 125] ++ bytesOf "\r\n")
  ((announced.push_line).write l.data).push_literal l.mode

/-- The `Encoder` impl for `IString`. -/
def IString.encode_ctx (s : IString) (ctx : EncodeContext) : EncodeContext :=
  match s with
  | .literal val => val.encode_ctx ctx
  | .quoted val => val.encode_ctx ctx

/-- The `Encoder` impl for `AString`. -/
def AString.encode_ctx (s : AString) (ctx : EncodeContext) : EncodeContext :=
  match s with
  | .atom a => a.encode_ctx ctx
  | .string istr => istr.encode_ctx ctx

/-- The `Encoder` impl for `NString`: `NIL` when absent. -/
def NString.encode_ctx (n : NString) (ctx : EncodeContext) : EncodeContext :=
  match n.val with
  | some istr => istr.encode_ctx ctx
  | none => ctx.write (bytesOf "NIL")

/-- The `Encoder` impl for `Text`: the raw inner bytes. -/
def Text.encode_ctx (t : Text) (ctx : EncodeContext) : EncodeContext :=
  ctx.write t.inner

/-- The `Encoder` impl for `Charset`. -/
def Charset.encode_ctx (c : Charset) (ctx : EncodeContext) : EncodeContext :=
  match c with
  | .atom a => a.encode_ctx ctx
  | .quoted q => q.encode_ctx ctx

/-- The `Encoder` impl for `MailboxOther`: the stored `AString`. -/
def MailboxOther.encode_ctx (m : MailboxOther) (ctx : EncodeContext) : EncodeContext :=
  m.inner.encode_ctx ctx

/-- The `Encoder` impl for `Mailbox`: `INBOX` or the stored form. -/
def Mailbox.encode_ctx (m : Mailbox) (ctx : EncodeContext) : EncodeContext :=
  match m with
  | .inbox => ctx.write (bytesOf "INBOX")
  | .other o => o.encode_ctx ctx

/-- The `Encoder` impl for `ListCharString`: the raw bytes. -/
def ListCharString.encode_ctx (l : ListCharString) (ctx : EncodeContext) : EncodeContext :=
  ctx.write l.raw

/-- The `Encoder` impl for `ListMailbox`. -/
def ListMailbox.encode_ctx (m : ListMailbox) (ctx : EncodeContext) : EncodeContext :=
  match m with
  | .token lcs => lcs.encode_ctx ctx
  | .string istr => istr.encode_ctx ctx

/-- The `Encoder` impl for `StatusDataItemName`. -/
def StatusDataItemName.encode_ctx (s : StatusDataItemName) (ctx : EncodeContext) : EncodeContext :=
  match s with
  | .messages => ctx.write (bytesOf "MESSAGES")
  | .recent => ctx.write (bytesOf "RECENT")
  | .uidNext => ctx.write (bytesOf "UIDNEXT")
  | .uidValidity => ctx.write (bytesOf "UIDVALIDITY")
  | .unseen => ctx.write (bytesOf "UNSEEN")
  | .deleted => ctx.write (bytesOf "DELETED")
  | .deletedStorage => ctx.write (bytesOf "DELETED-STORAGE")
  | .highestModSeq => ctx.write (bytesOf "HIGHESTMODSEQ")

/-- The `Encoder` impl for `FlagExtension`: `\` + the atom bytes. -/
def FlagExtension.encode_ctx (f : FlagExtension) (ctx : EncodeContext) : EncodeContext :=
  (ctx.write (bytesOf "\\")).write f.inner

/-- The `Encoder` impl for `Flag`. -/
def Flag.encode_ctx (f : Flag) (ctx : EncodeContext) : EncodeContext :=
  match f with
  | .seen => ctx.write (bytesOf "\\Seen")
  | .answered => ctx.write (bytesOf "\\Answered")
  | .flagged => ctx.write (bytesOf "\\Flagged")
  | .deleted => ctx.write (bytesOf "\\Deleted")
  | .draft => ctx.write (bytesOf "\\Draft")
  | .extensionFlag other => other.encode_ctx ctx
  | .keyword a => a.encode_ctx ctx

/-- The `Encoder` impl for `FlagFetch`. -/
def FlagFetch.encode_ctx (f : FlagFetch) (ctx : EncodeContext) : EncodeContext :=
  match f with
  | .flag fl => fl.encode_ctx ctx
  | .recent => ctx.write (bytesOf "\\Recent")

/-- The `Encoder` impl for `FlagPerm`. -/
def FlagPerm.encode_ctx (f : FlagPerm) (ctx : EncodeContext) : EncodeContext :=
  match f with
  | .flag fl => fl.encode_ctx ctx
  | .allowNewKeywords => ctx.write (bytesOf "\\*")

/-- The `Encoder` impl for `FlagNameAttribute`. -/
def FlagNameAttribute.encode_ctx (f : FlagNameAttribute) (ctx : EncodeContext) : EncodeContext :=
  match f with
  | .noinferiors => ctx.write (bytesOf "\\Noinferiors")
  | .noselect => ctx.write (bytesOf "\\Noselect")
  | .marked => ctx.write (bytesOf "\\Marked")
  | .unmarked => ctx.write (bytesOf "\\Unmarked")
  | .extensionAttr a => a.encode_ctx (ctx.write (bytesOf "\\"))

/-- The `Encoder` impl for `QuotedChar`: escape the two specials. -/
def QuotedChar.encode_ctx (q : QuotedChar) (ctx : EncodeContext) : EncodeContext :=
  if q.inner = 92 then ctx.write (bytesOf "\\\\")
  else if q.inner = 34 then ctx.write (bytesOf "\\\"")
  else ctx.write [q.inner]

/-- Formatted date bytes `DD-Mon-YYYY` (chrono `%d-%b-%Y`). -/
def NaiveDate.formatBytes (d : NaiveDate) : List Nat :=
  padDecimal 2 d.day ++ [45] ++ d.month.abbrevBytes ++ [45] ++ padDecimal 4 d.year

/-- The `Encoder` impl for `NaiveDate`: the quoted formatted date. -/
def NaiveDate.encode_ctx (d : NaiveDate) (ctx : EncodeContext) : EncodeContext :=
  ctx.write ([34] ++ d.formatBytes ++ [34])

/-- Formatted date-time bytes `DD-Mon-YYYY HH:MM:SS ±HHMM`
(chrono `%d-%b-%Y %H:%M:%S %z`). -/
def DateTime.formatBytes (dt : DateTime) : List Nat :=
  dt.date.formatBytes ++ [32] ++ padDecimal 2 dt.hour ++ [58] ++ padDecimal 2 dt.minute ++
    [58] ++ padDecimal 2 dt.second ++ [32] ++ [if dt.offsetNegative then 45 else 43] ++
    padDecimal 2 dt.offsetHours ++ padDecimal 2 dt.offsetMinutes

/-- The `Encoder` impl for `DateTime` (delegating to the chrono
formatting): the quoted formatted date-time. -/
def DateTime.encode_ctx (dt : DateTime) (ctx : EncodeContext) : EncodeContext :=
  ctx.write ([34] ++ dt.formatBytes ++ [34])

/-- The `Encoder` impl for `SeqOrUid`. -/
def SeqOrUid.encode_ctx (s : SeqOrUid) (ctx : EncodeContext) : EncodeContext :=
  match s with
  | .value number => ctx.write (natDecimal number)
  | .asterisk => ctx.write (bytesOf "*")

/-- The `Encoder` impl for `Sequence`. -/
def Sequence.encode_ctx (s : Sequence) (ctx : EncodeContext) : EncodeContext :=
  match s with
  | .single seqNo => seqNo.encode_ctx ctx
  | .range from_ to_ => to_.encode_ctx ((from_.encode_ctx ctx).write (bytesOf ":"))

/-- The `Encoder` impl for `SequenceSet`: comma-joined sequences. -/
def SequenceSet.encode_ctx (s : SequenceSet) (ctx : EncodeContext) : EncodeContext :=
  joinSerializable Sequence.encode_ctx s.seqs (bytesOf ",") ctx

mutual

/-- The `Encoder` impl for `SearchKey`. -/
def SearchKey.encode_ctx (k : SearchKey) (ctx : EncodeContext) : EncodeContext :=
  match k with
  | .all => ctx.write (bytesOf "ALL")
  | .answered => ctx.write (bytesOf "ANSWERED")
  | .bcc astring => astring.encode_ctx (ctx.write (bytesOf "BCC "))
  | .before date => date.encode_ctx (ctx.write (bytesOf "BEFORE "))
  | .body astring => astring.encode_ctx (ctx.write (bytesOf "BODY "))
  | .cc astring => astring.encode_ctx (ctx.write (bytesOf "CC "))
  | .deleted => ctx.write (bytesOf "DELETED")
  | .flagged => ctx.write (bytesOf "FLAGGED")
  | .from astring => astring.encode_ctx (ctx.write (bytesOf "FROM "))
  | .keyword flagKeyword => flagKeyword.encode_ctx (ctx.write (bytesOf "KEYWORD "))
  | .new => ctx.write (bytesOf "NEW")
  | .old => ctx.write (bytesOf "OLD")
  | .on date => date.encode_ctx (ctx.write (bytesOf "ON "))
  | .recent => ctx.write (bytesOf "RECENT")
  | .seen => ctx.write (bytesOf "SEEN")
  | .since date => date.encode_ctx (ctx.write (bytesOf "SINCE "))
  | .subject astring => astring.encode_ctx (ctx.write (bytesOf "SUBJECT "))
  | .text astring => astring.encode_ctx (ctx.write (bytesOf "TEXT "))
  | .to astring => astring.encode_ctx (ctx.write (bytesOf "TO "))
  | .unanswered => ctx.write (bytesOf "UNANSWERED")
  | .undeleted => ctx.write (bytesOf "UNDELETED")
  | .unflagged => ctx.write (bytesOf "UNFLAGGED")
  | .unkeyword flagKeyword => flagKeyword.encode_ctx (ctx.write (bytesOf "UNKEYWORD "))
  | .unseen => ctx.write (bytesOf "UNSEEN")
  | .draft => ctx.write (bytesOf "DRAFT")
  | .header headerFldName astring =>
    astring.encode_ctx ((headerFldName.encode_ctx (ctx.write (bytesOf "HEADER "))).write (bytesOf " "))
  | .larger number => ctx.write (bytesOf "LARGER " ++ natDecimal number)
  | .not searchKey => searchKey.encode_ctx (ctx.write (bytesOf "NOT "))
  | .or searchKeyA searchKeyB =>
    searchKeyB.encode_ctx ((searchKeyA.encode_ctx (ctx.write (bytesOf "OR "))).write (bytesOf " "))
  | .sentBefore date => date.encode_ctx (ctx.write (bytesOf "SENTBEFORE "))
  | .sentOn date => date.encode_ctx (ctx.write (bytesOf "SENTON "))
  | .sentSince date => date.encode_ctx (ctx.write (bytesOf "SENTSINCE "))
  | .smaller number => ctx.write (bytesOf "SMALLER " ++ natDecimal number)
  | .uid sequenceSet => sequenceSet.encode_ctx (ctx.write (bytesOf "UID "))
  | .undraft => ctx.write (bytesOf "UNDRAFT")
  | .sequenceSet s => s.encode_ctx ctx
  | .and searchKeys =>
    (joinSearchKeys searchKeys (bytesOf " ") (ctx.write (bytesOf "("))).write (bytesOf ")")

/-- The `join_serializable` instantiation at `SearchKey` (specialized
because the elements are encoded recursively). -/
def joinSearchKeys (keys : List SearchKey) (sep : List Nat) (ctx : EncodeContext) :
    EncodeContext :=
  match keys with
  | [] => ctx
  | [x] => x.encode_ctx ctx
  | x :: y :: rest => joinSearchKeys (y :: rest) sep ((x.encode_ctx ctx).write sep)

end

/-- The `Encoder` impl for `Part`: dot-joined numbers. -/
def Part.encode_ctx (p : Part) (ctx : EncodeContext) : EncodeContext :=
  joinSerializable encodeNonZeroU32 p.numbers (bytesOf ".") ctx

/-- The `Encoder` impl for `Section`. -/
def Section.encode_ctx (s : Section) (ctx : EncodeContext) : EncodeContext :=
  match s with
  | .part p => p.encode_ctx ctx
  | .header maybePart =>
    match maybePart with
    | some p => (p.encode_ctx ctx).write (bytesOf ".HEADER")
    | none => ctx.write (bytesOf "HEADER")
  | .headerFields maybePart headerList =>
    let c1 :=
      match maybePart with
      | some p => (p.encode_ctx ctx).write (bytesOf ".HEADER.FIELDS (")
      | none => ctx.write (bytesOf "HEADER.FIELDS (")
    (joinSerializable AString.encode_ctx headerList (bytesOf " ") c1).write (bytesOf ")")
  | .headerFieldsNot maybePart headerList =>
    let c1 :=
      match maybePart with
      | some p => (p.encode_ctx ctx).write (bytesOf ".HEADER.FIELDS.NOT (")
      | none => ctx.write (bytesOf "HEADER.FIELDS.NOT (")
    (joinSerializable AString.encode_ctx headerList (bytesOf " ") c1).write (bytesOf ")")
  | .text maybePart =>
    match maybePart with
    | some p => (p.encode_ctx ctx).write (bytesOf ".TEXT")
    | none => ctx.write (bytesOf "TEXT")
  | .mime p => (p.encode_ctx ctx).write (bytesOf ".MIME")

/-- The `Encoder` impl for `MessageDataItemName`. -/
def MessageDataItemName.encode_ctx (m : MessageDataItemName) (ctx : EncodeContext) :
    EncodeContext :=
  match m with
  | .body => ctx.write (bytesOf "BODY")
  | .bodyExt sectionSpec partialRange peek =>
    let c1 := if peek then ctx.write (bytesOf "BODY.PEEK[") else ctx.write (bytesOf "BODY[")
    let c2 :=
      match sectionSpec with
      | some s => s.encode_ctx c1
      | none => c1
    let c3 := c2.write (bytesOf "]")
    match partialRange with
    | some (a, b) => c3.write ([60] ++ natDecimal a ++ [46] ++ natDecimal b ++ [62])
    | none => c3
  | .bodyStructure => ctx.write (bytesOf "BODYSTRUCTURE")
  | .envelope => ctx.write (bytesOf "ENVELOPE")
  | .flags => ctx.write (bytesOf "FLAGS")
  | .internalDate => ctx.write (bytesOf "INTERNALDATE")
  | .rfc822 => ctx.write (bytesOf "RFC822")
  | .rfc822Header => ctx.write (bytesOf "RFC822.HEADER")
  | .rfc822Size => ctx.write (bytesOf "RFC822.SIZE")
  | .rfc822Text => ctx.write (bytesOf "RFC822.TEXT")
  | .uid => ctx.write (bytesOf "UID")

/-- The `Encoder` impl for `Macro` (its `Display` rendering is the
uppercase macro name, per the spec). -/
def Macro.encode_ctx (m : Macro) (ctx : EncodeContext) : EncodeContext :=
  match m with
  | .all => ctx.write (bytesOf "ALL")
  | .fast => ctx.write (bytesOf "FAST")
  | .full => ctx.write (bytesOf "FULL")

/-- The `Encoder` impl for `MacroOrMessageDataItemNames`: a single
item name is written bare, several are parenthesized. -/
def MacroOrMessageDataItemNames.encode_ctx (m : MacroOrMessageDataItemNames)
    (ctx : EncodeContext) : EncodeContext :=
  match m with
  | .macroItem mac => mac.encode_ctx ctx
  | .messageDataItemNames itemNames =>
    match itemNames with
    | [single] => single.encode_ctx ctx
    | _ =>
      (joinSerializable MessageDataItemName.encode_ctx itemNames (bytesOf " ")
        (ctx.write (bytesOf "("))).write (bytesOf ")")

/-- The `Encoder` impl for `AuthMechanism` (via its `Display`
rendering, modelled from the spec). -/
def AuthMechanism.encode_ctx (m : AuthMechanism) (ctx : EncodeContext) : EncodeContext :=
  match m with
  | .plain => ctx.write (bytesOf "PLAIN")
  | .login => ctx.write (bytesOf "LOGIN")
  | .other raw => ctx.write raw

/-- The `Encoder` impl for `Capability` (via its `Display` rendering,
modelled from the spec). -/
def Capability.encode_ctx (c : Capability) (ctx : EncodeContext) : EncodeContext :=
  ctx.write c.raw

/-- ASCII byte of one base64 alphabet position (standard alphabet). -/
def base64Char (n : Nat) : Nat :=
  if n < 26 then 65 + n
  else if n < 52 then 97 + (n - 26)
  else if n < 62 then 48 + (n - 52)
  else if n = 62 then 43
  else 47

/-- Modelled from the spec: standard base64 encoding with padding (the
`base64` crate is not in the sources; scenario S4 fixes the alphabet
and padding). -/
def base64Encode : List Nat → List Nat
  | [] => []
  | [b1] => [base64Char (b1 / 4), base64Char (b1 % 4 * 16), 61, 61]
  | [b1, b2] => [base64Char (b1 / 4), base64Char (b1 % 4 * 16 + b2 / 16),
      base64Char (b2 % 16 * 4), 61]
  | b1 :: b2 :: b3 :: rest =>
    [base64Char (b1 / 4), base64Char (b1 % 4 * 16 + b2 / 16),
      base64Char (b2 % 16 * 4 + b3 / 64), base64Char (b3 % 64)] ++ base64Encode rest

/-- Modelled from the spec: the quota encoder for a SETQUOTA
resource/limit pair (not in the sources): `resource SP limit`. -/
def QuotaSet.encode_ctx (q : QuotaSet) (ctx : EncodeContext) : EncodeContext :=
  ctx.write (q.resource ++ bytesOf " " ++ natDecimal q.limit)

/-- Modelled from the spec: the quota encoder for a QUOTA response
triple (not in the sources): `resource SP usage SP limit`. -/
def QuotaGet.encode_ctx (q : QuotaGet) (ctx : EncodeContext) : EncodeContext :=
  ctx.write (q.resource ++ bytesOf " " ++ natDecimal q.usage ++ bytesOf " " ++
    natDecimal q.limit)

/-- Modelled from the spec: the `CompressionAlgorithm` encoder (not in
the sources): the raw algorithm name. -/
def CompressionAlgorithm.encode_ctx (a : CompressionAlgorithm) (ctx : EncodeContext) :
    EncodeContext :=
  ctx.write a.raw

/-- The `Encoder` impl for `CommandBody` (all features enabled). -/
def CommandBody.encode_ctx (b : CommandBody) (ctx : EncodeContext) : EncodeContext :=
  match b with
  | .capability => ctx.write (bytesOf "CAPABILITY")
  | .noop => ctx.write (bytesOf "NOOP")
  | .logout => ctx.write (bytesOf "LOGOUT")
  | .startTLS => ctx.write (bytesOf "STARTTLS")
  | .authenticate mechanism initialResponse =>
    let c1 := mechanism.encode_ctx ((ctx.write (bytesOf "AUTHENTICATE")).write (bytesOf " "))
    match initialResponse with
    | some ir =>
      let c2 := c1.write (bytesOf " ")
      if ir.declassify.isEmpty then c2.write (bytesOf "=")
      else c2.write (base64Encode ir.declassify)
    | none => c1
  | .login username password =>
    password.declassify.encode_ctx
      ((username.encode_ctx ((ctx.write (bytesOf "LOGIN")).write (bytesOf " "))).write
        (bytesOf " "))
  | .select mailbox => mailbox.encode_ctx ((ctx.write (bytesOf "SELECT")).write (bytesOf " "))
  | .unselect => ctx.write (bytesOf "UNSELECT")
  | .examine mailbox => mailbox.encode_ctx ((ctx.write (bytesOf "EXAMINE")).write (bytesOf " "))
  | .create mailbox => mailbox.encode_ctx ((ctx.write (bytesOf "CREATE")).write (bytesOf " "))
  | .delete mailbox => mailbox.encode_ctx ((ctx.write (bytesOf "DELETE")).write (bytesOf " "))
  | .rename from_ to_ =>
    to_.encode_ctx
      ((from_.encode_ctx ((ctx.write (bytesOf "RENAME")).write (bytesOf " "))).write
        (bytesOf " "))
  | .subscribe mailbox =>
    mailbox.encode_ctx ((ctx.write (bytesOf "SUBSCRIBE")).write (bytesOf " "))
  | .unsubscribe mailbox =>
    mailbox.encode_ctx ((ctx.write (bytesOf "UNSUBSCRIBE")).write (bytesOf " "))
  | .list reference mailboxWildcard =>
    mailboxWildcard.encode_ctx
      ((reference.encode_ctx ((ctx.write (bytesOf "LIST")).write (bytesOf " "))).write
        (bytesOf " "))
  | .lsub reference mailboxWildcard =>
    mailboxWildcard.encode_ctx
      ((reference.encode_ctx ((ctx.write (bytesOf "LSUB")).write (bytesOf " "))).write
        (bytesOf " "))
  | .status mailbox itemNames =>
    let c1 := mailbox.encode_ctx ((ctx.write (bytesOf "STATUS")).write (bytesOf " "))
    (joinSerializable StatusDataItemName.encode_ctx itemNames (bytesOf " ")
      ((c1.write (bytesOf " ")).write (bytesOf "("))).write (bytesOf ")")
  | .append mailbox flags date message =>
    let c1 := mailbox.encode_ctx ((ctx.write (bytesOf "APPEND")).write (bytesOf " "))
    let c2 :=
      if flags.isEmpty then c1
      else
        (joinSerializable Flag.encode_ctx flags (bytesOf " ")
          ((c1.write (bytesOf " ")).write (bytesOf "("))).write (bytesOf ")")
    let c3 :=
      match date with
      | some d => d.encode_ctx (c2.write (bytesOf " "))
      | none => c2
    message.encode_ctx (c3.write (bytesOf " "))
  | .check => ctx.write (bytesOf "CHECK")
  | .close => ctx.write (bytesOf "CLOSE")
  | .expunge => ctx.write (bytesOf "EXPUNGE")
  | .search charset criteria uid =>
    let c1 := if uid then ctx.write (bytesOf "UID SEARCH") else ctx.write (bytesOf "SEARCH")
    let c2 :=
      match charset with
      | some cs => cs.encode_ctx (c1.write (bytesOf " CHARSET "))
      | none => c1
    criteria.encode_ctx (c2.write (bytesOf " "))
  | .fetch sequenceSet macroOrItemNames uid =>
    let c1 := if uid then ctx.write (bytesOf "UID FETCH ") else ctx.write (bytesOf "FETCH ")
    macroOrItemNames.encode_ctx ((sequenceSet.encode_ctx c1).write (bytesOf " "))
  | .store sequenceSet kind response flags uid =>
    let c1 := if uid then ctx.write (bytesOf "UID STORE ") else ctx.write (bytesOf "STORE ")
    let c2 := (sequenceSet.encode_ctx c1).write (bytesOf " ")
    let c3 :=
      match kind with
      | .add => c2.write (bytesOf "+")
      | .remove => c2.write (bytesOf "-")
      | .replace => c2
    let c4 := c3.write (bytesOf "FLAGS")
    let c5 :=
      match response with
      | .answer => c4
      | .silent => c4.write (bytesOf ".SILENT")
    (joinSerializable Flag.encode_ctx flags (bytesOf " ")
      (c5.write (bytesOf " ("))).write (bytesOf ")")
  | .copy sequenceSet mailbox uid =>
    let c1 := if uid then ctx.write (bytesOf "UID COPY ") else ctx.write (bytesOf "COPY ")
    mailbox.encode_ctx ((sequenceSet.encode_ctx c1).write (bytesOf " "))
  | .idle => ctx.write (bytesOf "IDLE")
  | .enable capabilities =>
    joinSerializable Capability.encode_ctx capabilities (bytesOf " ")
      (ctx.write (bytesOf "ENABLE "))
  | .compress algorithm => algorithm.encode_ctx (ctx.write (bytesOf "COMPRESS "))
  | .getQuota root => root.encode_ctx (ctx.write (bytesOf "GETQUOTA "))
  | .getQuotaRoot mailbox => mailbox.encode_ctx (ctx.write (bytesOf "GETQUOTAROOT "))
  | .setQuota root quotas =>
    (joinSerializable QuotaSet.encode_ctx quotas (bytesOf " ")
      ((root.encode_ctx (ctx.write (bytesOf "SETQUOTA "))).write (bytesOf " ("))).write
      (bytesOf ")")
  | .move sequenceSet mailbox uid =>
    let c1 := if uid then ctx.write (bytesOf "UID MOVE ") else ctx.write (bytesOf "MOVE ")
    mailbox.encode_ctx ((sequenceSet.encode_ctx c1).write (bytesOf " "))

/-- The `Encoder` impl for `Command`: tag, space, body, CRLF. -/
def Command.encode_ctx (c : Command) (ctx : EncodeContext) : EncodeContext :=
  (c.body.encode_ctx ((c.tag.encode_ctx ctx).write (bytesOf " "))).write (bytesOf "\r\n")

/-- The `Encoder` impl for `AuthenticateData`: base64 payload plus
CRLF. -/
def AuthenticateData.encode_ctx (d : AuthenticateData) (ctx : EncodeContext) : EncodeContext :=
  (ctx.write (base64Encode d.payload.declassify)).write (bytesOf "\r\n")

-- ---------------------------------------------------------------------
-- Response encoders
-- ---------------------------------------------------------------------

/-- The `Encoder` impl for `GreetingKind`. -/
def GreetingKind.encode_ctx (k : GreetingKind) (ctx : EncodeContext) : EncodeContext :=
  match k with
  | .ok => ctx.write (bytesOf "OK")
  | .preAuth => ctx.write (bytesOf "PREAUTH")
  | .bye => ctx.write (bytesOf "BYE")

/-- The `Encoder` impl for `CodeOther`: the raw inner bytes. -/
def CodeOther.encode_ctx (c : CodeOther) (ctx : EncodeContext) : EncodeContext :=
  ctx.write c.inner

/-- The `Encoder` impl for `Code`. -/
def Code.encode_ctx (c : Code) (ctx : EncodeContext) : EncodeContext :=
  match c with
  | .alert => ctx.write (bytesOf "ALERT")
  | .badCharset allowed =>
    if allowed.isEmpty then ctx.write (bytesOf "BADCHARSET")
    else
      (joinSerializable Charset.encode_ctx allowed (bytesOf " ")
        (ctx.write (bytesOf "BADCHARSET ("))).write (bytesOf ")")
  | .capability caps =>
    joinSerializable Capability.encode_ctx caps (bytesOf " ")
      (ctx.write (bytesOf "CAPABILITY "))
  | .parse => ctx.write (bytesOf "PARSE")
  | .permanentFlags flags =>
    (joinSerializable FlagPerm.encode_ctx flags (bytesOf " ")
      (ctx.write (bytesOf "PERMANENTFLAGS ("))).write (bytesOf ")")
  | .readOnly => ctx.write (bytesOf "READ-ONLY")
  | .readWrite => ctx.write (bytesOf "READ-WRITE")
  | .tryCreate => ctx.write (bytesOf "TRYCREATE")
  | .uidNext next => encodeNonZeroU32 next (ctx.write (bytesOf "UIDNEXT "))
  | .uidValidity validity => encodeNonZeroU32 validity (ctx.write (bytesOf "UIDVALIDITY "))
  | .unseen seq => encodeNonZeroU32 seq (ctx.write (bytesOf "UNSEEN "))
  | .referral url => (ctx.write (bytesOf "REFERRAL ")).write url
  | .compressionActive => ctx.write (bytesOf "COMPRESSIONACTIVE")
  | .overQuota => ctx.write (bytesOf "OVERQUOTA")
  | .tooBig => ctx.write (bytesOf "TOOBIG")
  | .other unknown => unknown.encode_ctx ctx

/-- The `format_status` helper of the `Status` encoder: optional tag or
`*`, the status word, optional bracketed code, text, CRLF. -/
def formatStatus (tag : Option Tag) (statusWord : List Nat) (code : Option Code)
    (comment : Text) (ctx : EncodeContext) : EncodeContext :=
  let c1 :=
    match tag with
    | some t => t.encode_ctx ctx
    | none => ctx.write (bytesOf "*")
  let c2 := ((c1.write (bytesOf " ")).write statusWord).write (bytesOf " ")
  let c3 :=
    match code with
    | some cd => (cd.encode_ctx (c2.write (bytesOf "["))).write (bytesOf "] ")
    | none => c2
  (comment.encode_ctx c3).write (bytesOf "\r\n")

/-- The `Encoder` impl for `Status`. -/
def Status.encode_ctx (s : Status) (ctx : EncodeContext) : EncodeContext :=
  match s with
  | .ok tag code text => formatStatus tag (bytesOf "OK") code text ctx
  | .no tag code text => formatStatus tag (bytesOf "NO") code text ctx
  | .bad tag code text => formatStatus tag (bytesOf "BAD") code text ctx
  | .bye code text => formatStatus none (bytesOf "BYE") code text ctx

/-- The `Encoder` impl for `Greeting`: `* KIND [CODE] text CRLF`. -/
def Greeting.encode_ctx (g : Greeting) (ctx : EncodeContext) : EncodeContext :=
  let c1 := (g.kind.encode_ctx (ctx.write (bytesOf "* "))).write (bytesOf " ")
  let c2 :=
    match g.code with
    | some code => (code.encode_ctx (c1.write (bytesOf "["))).write (bytesOf "] ")
    | none => c1
  (g.text.encode_ctx c2).write (bytesOf "\r\n")

/-- The `Encoder` impl for `StatusDataItem`. -/
def StatusDataItem.encode_ctx (s : StatusDataItem) (ctx : EncodeContext) : EncodeContext :=
  match s with
  | .messages count => encodeU32 count (ctx.write (bytesOf "MESSAGES "))
  | .recent count => encodeU32 count (ctx.write (bytesOf "RECENT "))
  | .uidNext next => encodeNonZeroU32 next (ctx.write (bytesOf "UIDNEXT "))
  | .uidValidity identifier => encodeNonZeroU32 identifier (ctx.write (bytesOf "UIDVALIDITY "))
  | .unseen count => encodeU32 count (ctx.write (bytesOf "UNSEEN "))
  | .deleted count => encodeU32 count (ctx.write (bytesOf "DELETED "))
  | .deletedStorage count => encodeU64 count (ctx.write (bytesOf "DELETED-STORAGE "))

/-- The `Encoder` impl for `BasicFields`. -/
def BasicFields.encode_ctx (b : BasicFields) (ctx : EncodeContext) : EncodeContext :=
  let c1 := list1AttributeValueOrNil IString.encode_ctx b.parameterList ctx
  let c2 := b.id.encode_ctx (c1.write (bytesOf " "))
  let c3 := b.description.encode_ctx (c2.write (bytesOf " "))
  let c4 := b.contentTransferEncoding.encode_ctx (c3.write (bytesOf " "))
  (c4.write (bytesOf " ")).write (natDecimal b.size)

/-- The `Encoder` impl for `Address`: parenthesized 4-tuple. -/
def Address.encode_ctx (a : Address) (ctx : EncodeContext) : EncodeContext :=
  let c1 := a.name.encode_ctx (ctx.write (bytesOf "("))
  let c2 := a.adl.encode_ctx (c1.write (bytesOf " "))
  let c3 := a.mailbox.encode_ctx (c2.write (bytesOf " "))
  ((a.host.encode_ctx (c3.write (bytesOf " "))).write (bytesOf ")"))

/-- The `Encoder` impl for `Envelope`: positional parenthesized tuple
with `NIL` for absent values and list-or-NIL for address lists. -/
def Envelope.encode_ctx (e : Envelope) (ctx : EncodeContext) : EncodeContext :=
  let c1 := e.date.encode_ctx (ctx.write (bytesOf "("))
  let c2 := e.subject.encode_ctx (c1.write (bytesOf " "))
  let c3 := list1OrNil Address.encode_ctx e.from_ [] (c2.write (bytesOf " "))
  let c4 := list1OrNil Address.encode_ctx e.sender [] (c3.write (bytesOf " "))
  let c5 := list1OrNil Address.encode_ctx e.replyTo [] (c4.write (bytesOf " "))
  let c6 := list1OrNil Address.encode_ctx e.to_ [] (c5.write (bytesOf " "))
  let c7 := list1OrNil Address.encode_ctx e.cc [] (c6.write (bytesOf " "))
  let c8 := list1OrNil Address.encode_ctx e.bcc [] (c7.write (bytesOf " "))
  let c9 := e.inReplyTo.encode_ctx (c8.write (bytesOf " "))
  (e.messageId.encode_ctx (c9.write (bytesOf " "))).write (bytesOf ")")

mutual

/-- The `Encoder` impl for `BodyExtension`. -/
def BodyExtension.encode_ctx (b : BodyExtension) (ctx : EncodeContext) : EncodeContext :=
  match b with
  | .nstring n => n.encode_ctx ctx
  | .number n => encodeU32 n ctx
  | .list l =>
    (joinBodyExtensions l (bytesOf " ") (ctx.write (bytesOf "("))).write (bytesOf ")")

/-- The `join_serializable` instantiation at `BodyExtension`
(specialized because the elements are encoded recursively). -/
def joinBodyExtensions (l : List BodyExtension) (sep : List Nat) (ctx : EncodeContext) :
    EncodeContext :=
  match l with
  | [] => ctx
  | [x] => x.encode_ctx ctx
  | x :: y :: rest => joinBodyExtensions (y :: rest) sep ((x.encode_ctx ctx).write sep)

end

/-- The `Encoder` impl for `Location`: the location NString then each
body extension prefixed by a space. -/
def Location.encode_ctx (l : Location) (ctx : EncodeContext) : EncodeContext :=
  l.extensions.foldl (fun c ext => ext.encode_ctx (c.write (bytesOf " ")))
    (l.location.encode_ctx ctx)

/-- The `Encoder` impl for `Language`: list-or-NIL of languages, then
the optional location chain. -/
def Language.encode_ctx (l : Language) (ctx : EncodeContext) : EncodeContext :=
  let c1 := list1OrNil NString.encode_ctx l.language (bytesOf " ") ctx
  match l.tail with
  | some location => location.encode_ctx (c1.write (bytesOf " "))
  | none => c1

/-- The `Encoder` impl for `Disposition`: the optional disposition
pair, then the optional language chain. -/
def Disposition.encode_ctx (d : Disposition) (ctx : EncodeContext) : EncodeContext :=
  let c1 :=
    match d.disposition with
    | some (s, param) =>
      ((list1AttributeValueOrNil IString.encode_ctx param
        ((s.encode_ctx (ctx.write (bytesOf "("))).write (bytesOf " "))).write (bytesOf ")"))
    | none => ctx.write (bytesOf "NIL")
  match d.tail with
  | some language => language.encode_ctx (c1.write (bytesOf " "))
  | none => c1

/-- The `Encoder` impl for `SinglePartExtensionData`. -/
def SinglePartExtensionData.encode_ctx (s : SinglePartExtensionData) (ctx : EncodeContext) :
    EncodeContext :=
  let c1 := s.md5.encode_ctx ctx
  match s.tail with
  | some disposition => disposition.encode_ctx (c1.write (bytesOf " "))
  | none => c1

/-- The `Encoder` impl for `MultiPartExtensionData`. -/
def MultiPartExtensionData.encode_ctx (m : MultiPartExtensionData) (ctx : EncodeContext) :
    EncodeContext :=
  let c1 := list1AttributeValueOrNil IString.encode_ctx m.parameterList ctx
  match m.tail with
  | some disposition => disposition.encode_ctx (c1.write (bytesOf " "))
  | none => c1

mutual

/-- The `Encoder` impl for `BodyStructure`: parenthesized single or
multipart structure. -/
def BodyStructure.encode_ctx (b : BodyStructure) (ctx : EncodeContext) : EncodeContext :=
  match b with
  | .single body extensionData =>
    let c1 := body.encode_ctx (ctx.write (bytesOf "("))
    let c2 :=
      match extensionData with
      | some extension => extension.encode_ctx (c1.write (bytesOf " "))
      | none => c1
    c2.write (bytesOf ")")
  | .multi bodies subtype extensionData =>
    let c1 := encodeBodyList bodies (ctx.write (bytesOf "("))
    let c2 := subtype.encode_ctx (c1.write (bytesOf " "))
    let c3 :=
      match extensionData with
      | some extension => extension.encode_ctx (c2.write (bytesOf " "))
      | none => c2
    c3.write (bytesOf ")")

/-- The `for body in bodies` loop of the multipart branch: encode each
child in order with no separator. -/
def encodeBodyList (bodies : List BodyStructure) (ctx : EncodeContext) : EncodeContext :=
  match bodies with
  | [] => ctx
  | b :: rest => encodeBodyList rest (b.encode_ctx ctx)

/-- The `Encoder` impl for `Body`: kind-specific fields interleaved
with the basic fields. -/
def Body.encode_ctx (b : Body) (ctx : EncodeContext) : EncodeContext :=
  match b with
  | .mk basic specific =>
    match specific with
    | .basicKind type_ subtype =>
      basic.encode_ctx
        ((subtype.encode_ctx ((type_.encode_ctx ctx).write (bytesOf " "))).write (bytesOf " "))
    | .message envelope bodyStructure numberOfLines =>
      let c1 := basic.encode_ctx (ctx.write (bytesOf "\"MESSAGE\" \"RFC822\" "))
      let c2 := envelope.encode_ctx (c1.write (bytesOf " "))
      let c3 := bodyStructure.encode_ctx (c2.write (bytesOf " "))
      (c3.write (bytesOf " ")).write (natDecimal numberOfLines)
    | .textKind subtype numberOfLines =>
      let c1 := subtype.encode_ctx (ctx.write (bytesOf "\"TEXT\" "))
      let c2 := basic.encode_ctx (c1.write (bytesOf " "))
      (c2.write (bytesOf " ")).write (natDecimal numberOfLines)

end

/-- The `Encoder` impl for `MessageDataItem`. -/
def MessageDataItem.encode_ctx (m : MessageDataItem) (ctx : EncodeContext) : EncodeContext :=
  match m with
  | .bodyExt sectionSpec origin data =>
    let c1 := ctx.write (bytesOf "BODY[")
    let c2 :=
      match sectionSpec with
      | some s => s.encode_ctx c1
      | none => c1
    let c3 := c2.write (bytesOf "]")
    let c4 :=
      match origin with
      | some o => c3.write ([60] ++ natDecimal o ++ [62])
      | none => c3
    data.encode_ctx (c4.write (bytesOf " "))
  | .body b => b.encode_ctx (ctx.write (bytesOf "BODY "))
  | .bodyStructure b => b.encode_ctx (ctx.write (bytesOf "BODYSTRUCTURE "))
  | .envelope e => e.encode_ctx (ctx.write (bytesOf "ENVELOPE "))
  | .flags fs =>
    (joinSerializable FlagFetch.encode_ctx fs (bytesOf " ")
      (ctx.write (bytesOf "FLAGS ("))).write (bytesOf ")")
  | .internalDate datetime => datetime.encode_ctx (ctx.write (bytesOf "INTERNALDATE "))
  | .rfc822 n => n.encode_ctx (ctx.write (bytesOf "RFC822 "))
  | .rfc822Header n => n.encode_ctx (ctx.write (bytesOf "RFC822.HEADER "))
  | .rfc822Size size => ctx.write (bytesOf "RFC822.SIZE " ++ natDecimal size)
  | .rfc822Text n => n.encode_ctx (ctx.write (bytesOf "RFC822.TEXT "))
  | .uid uidVal => ctx.write (bytesOf "UID " ++ natDecimal uidVal)

/-- The body of the `Data` encoder before its shared terminating CRLF
(the Rust impl is one `match` followed by `write_all(b"\r\n")`). -/
def Data.encodeInner (d : Data) (ctx : EncodeContext) : EncodeContext :=
  match d with
  | .capability caps =>
    joinSerializable Capability.encode_ctx caps (bytesOf " ")
      (ctx.write (bytesOf "* CAPABILITY "))
  | .list items delimiter mailbox =>
    let c1 :=
      (joinSerializable FlagNameAttribute.encode_ctx items (bytesOf " ")
        (ctx.write (bytesOf "* LIST ("))).write (bytesOf ") ")
    let c2 :=
      match delimiter with
      | some delim => ((delim.encode_ctx (c1.write (bytesOf "\""))).write (bytesOf "\""))
      | none => c1.write (bytesOf "NIL")
    mailbox.encode_ctx (c2.write (bytesOf " "))
  | .lsub items delimiter mailbox =>
    let c1 :=
      (joinSerializable FlagNameAttribute.encode_ctx items (bytesOf " ")
        (ctx.write (bytesOf "* LSUB ("))).write (bytesOf ") ")
    let c2 :=
      match delimiter with
      | some delim => ((delim.encode_ctx (c1.write (bytesOf "\""))).write (bytesOf "\""))
      | none => c1.write (bytesOf "NIL")
    mailbox.encode_ctx (c2.write (bytesOf " "))
  | .status mailbox items =>
    let c1 := mailbox.encode_ctx (ctx.write (bytesOf "* STATUS "))
    (joinSerializable StatusDataItem.encode_ctx items (bytesOf " ")
      (c1.write (bytesOf " ("))).write (bytesOf ")")
  | .search seqs =>
    if seqs.isEmpty then ctx.write (bytesOf "* SEARCH")
    else
      joinSerializable encodeNonZeroU32 seqs (bytesOf " ") (ctx.write (bytesOf "* SEARCH "))
  | .flags fs =>
    (joinSerializable FlagFetch.encode_ctx fs (bytesOf " ")
      (ctx.write (bytesOf "* FLAGS ("))).write (bytesOf ")")
  | .exists_ count => ctx.write (bytesOf "* " ++ natDecimal count ++ bytesOf " EXISTS")
  | .recent count => ctx.write (bytesOf "* " ++ natDecimal count ++ bytesOf " RECENT")
  | .expunge msg => ctx.write (bytesOf "* " ++ natDecimal msg ++ bytesOf " EXPUNGE")
  | .fetch seq items =>
    (joinSerializable MessageDataItem.encode_ctx items (bytesOf " ")
      (ctx.write (bytesOf "* " ++ natDecimal seq ++ bytesOf " FETCH ("))).write (bytesOf ")")
  | .enabled capabilities =>
    capabilities.foldl (fun c cap => cap.encode_ctx (c.write (bytesOf " ")))
      (ctx.write (bytesOf "* ENABLED"))
  | .quota root quotas =>
    let c1 := root.encode_ctx (ctx.write (bytesOf "* QUOTA "))
    (joinSerializable QuotaGet.encode_ctx quotas (bytesOf " ")
      (c1.write (bytesOf " ("))).write (bytesOf ")")
  | .quotaRoot mailbox roots =>
    roots.foldl (fun c root => root.encode_ctx (c.write (bytesOf " ")))
      (mailbox.encode_ctx (ctx.write (bytesOf "* QUOTAROOT ")))

/-- The `Encoder` impl for `Data`: the variant body followed by CRLF. -/
def Data.encode_ctx (d : Data) (ctx : EncodeContext) : EncodeContext :=
  (Data.encodeInner d ctx).write (bytesOf "\r\n")

/-- The `Encoder` impl for `Continue`. -/
def Continue.encode_ctx (c : Continue) (ctx : EncodeContext) : EncodeContext :=
  match c with
  | .basic continueBasic =>
    match continueBasic.code with
    | some code =>
      ((continueBasic.text.encode_ctx
        ((code.encode_ctx (ctx.write (bytesOf "+ ["))).write (bytesOf "] ")))).write
        (bytesOf "\r\n")
    | none =>
      (continueBasic.text.encode_ctx (ctx.write (bytesOf "+ "))).write (bytesOf "\r\n")
  | .base64 data =>
    ((ctx.write (bytesOf "+ ")).write (base64Encode data)).write (bytesOf "\r\n")

/-- The `Encoder` impl for `Response`. -/
def Response.encode_ctx (r : Response) (ctx : EncodeContext) : EncodeContext :=
  match r with
  | .status s => s.encode_ctx ctx
  | .data d => d.encode_ctx ctx
  | .continueReq c => c.encode_ctx ctx

-- ---------------------------------------------------------------------
-- The blanket `Encode` impl
-- ---------------------------------------------------------------------

/-- The blanket `Encode` impl at `Command`: run the encoder on a fresh
context and collect the fragments. -/
def Command.encode (c : Command) : Encoded :=
  ⟨(c.encode_ctx EncodeContext.new).into_items⟩

/-- The blanket `Encode` impl at `Greeting`. -/
def Greeting.encode (g : Greeting) : Encoded :=
  ⟨(g.encode_ctx EncodeContext.new).into_items⟩

/-- The blanket `Encode` impl at `Response`. -/
def Response.encode (r : Response) : Encoded :=
  ⟨(r.encode_ctx EncodeContext.new).into_items⟩

-- ---------------------------------------------------------------------
-- Stream decoder (src/tokio/mod.rs)
-- ---------------------------------------------------------------------

/-- Decoder state (`State`): reading a line, or reading a counted
literal body followed by more line bytes. -/
inductive CodecState : Type
  | readLine (toConsumeAcc : Nat)
  | readLiteral (toConsumeAcc : Nat) (needed : Nat)
deriving DecidableEq, Repr

/-- The server codec (`ImapServerCodec`): state plus the configured
maximum literal size. -/
structure ImapServerCodec : Type where
  state : CodecState
  maxLiteralSize : Nat
deriving DecidableEq, Repr

/-- Constructor (`ImapServerCodec::new`). -/
def ImapServerCodec.new (maxLiteralSize : Nat) : ImapServerCodec :=
  { state := .readLine 0, maxLiteralSize := maxLiteralSize }

/-- Line framing error kinds (`LineKind`). -/
inductive LineKind : Type
  | notCrLf
deriving DecidableEq, Repr

/-- Literal announcement error kinds (`LiteralKind`). -/
inductive LiteralKind : Type
  | tooLarge (n : Nat)
  | badNumber
  | noOpeningBrace
deriving DecidableEq, Repr

/-- Decoder error kinds (`ImapServerCodecError`, without the `Io`
variant, which cannot arise from `decode`). -/
inductive ImapServerCodecError : Type
  | line (kind : LineKind)
  | literal (kind : LiteralKind)
  | commandParsingFailed
  | actionRequired
deriving DecidableEq, Repr

/-- Control events required from the caller (`Action`). -/
inductive Action : Type
  | sendLiteralAck (n : Nat)
  | sendLiteralReject (n : Nat)
deriving DecidableEq, Repr

/-- Decoder outcomes (`Outcome`). -/
inductive Outcome : Type
  | command (cmd : Command)
  | actionRequired (a : Action)

/-- Result of one `decode` call.  `ok none` means more bytes are
needed.  `assertFailed` records the one way the Rust function can
panic: the `assert!(rem.is_empty())` after a successful parse. -/
inductive DecodeResult : Type
  | ok (outcome : Option Outcome)
  | err (e : ImapServerCodecError)
  | assertFailed

/-- Find a line terminator (`find_crlf_inclusive`): position the first
`\n` at index ≥ `skip`; error unless the byte before it is `\r` (the
`saturating_sub` makes the check read the `\n` itself when it sits at
index `skip`).  Returns the number of bytes from `skip` through the
`\n`, inclusive. -/
def find_crlf_inclusive (skip : Nat) (buf : List Nat) : Except LineKind (Option Nat) :=
  match (buf.drop skip).findIdx? (fun item => item == 10) with
  | some position =>
    if buf.getD (skip + (position - 1)) 0 != 13 then .error .notCrLf
    else .ok (some (position + 1))
  | none => .ok none

/-- Slice `line[start..stop]` (Rust range indexing on a byte slice). -/
def sliceBytes (line : List Nat) (start stop : Nat) : List Nat :=
  (line.drop start).take (stop - start)

/-- The backward scan of `parse_literal_enclosing`: starting just
past `index`, step left looking for `{`; reaching the start of the
line without finding one is an error. -/
def scanOpenBrace (line : List Nat) : Nat → Except LiteralKind (Option (List Nat))
  | 0 => .error .noOpeningBrace
  | index + 1 =>
    if line.getD index 0 == 123 then .ok (some (sliceBytes line (index + 1) (line.length - 1)))
    else scanOpenBrace line index

/-- Locate a literal announcement at the end of a completed line
(`parse_literal_enclosing`): no announcement unless the line is
non-empty and ends in `}`; otherwise the bytes strictly between the
last `{` and the final `}`. -/
def parse_literal_enclosing (line : List Nat) : Except LiteralKind (Option (List Nat)) :=
  if line.length == 0 then .ok none
  else if line.getD (line.length - 1) 0 != 125 then .ok none
  else scanOpenBrace line (line.length - 1)

/-- One ASCII decimal digit test. -/
def isAsciiDigit (b : Nat) : Bool :=
  48 ≤ b && b ≤ 57

/-- Model of `u32::from_str_radix(s, 10)` on raw bytes: an optional
leading `+`, then at least one ASCII digit, value below `2^32`.
`str::from_utf8` failure and `from_str_radix` failure are collapsed
into `none`: digits and `+` are ASCII, so any byte sequence accepted
here is valid UTF-8. -/
def fromStrRadix10 (s : List Nat) : Option Nat :=
  match s with
  | [] => none
  | b :: rest =>
    let digits := if b == 43 then rest else s
    if digits.isEmpty then none
    else if digits.all isAsciiDigit then
      let v := digits.foldl (fun acc d => acc * 10 + (d - 48)) 0
      if v < 2 ^ 32 then some v else none
    else none

/-- Parse the literal announcement of a completed line
(`parse_literal`): the enclosed bytes as a `u32`, or `BadNumber`. -/
def parse_literal (line : List Nat) : Except LiteralKind (Option Nat) :=
  match parse_literal_enclosing line with
  | .ok (some raw) =>
    match fromStrRadix10 raw with
    | some num => .ok (some num)
    | none => .error .badNumber
  | .ok none => .ok none
  | .error err => .error err

/-- The `State::ReadLine` arm of `decode`.  `cmdParse` stands for the
external grammar parser `crate::command::command`; `acc` is the
current `to_consume_acc`.  Returns the updated codec, the updated
buffer, and the call's result.  Note that the parse-failure arm of the
Rust source advances the buffer but leaves the state at the already
incremented `to_consume_acc` (only the success arm resets it to 0). -/
def decodeReadLine (cmdParse : List Nat → Option (Command × List Nat))
    (maxsz acc : Nat) (src : List Nat) :
    ImapServerCodec × List Nat × DecodeResult :=
  match find_crlf_inclusive acc src with
  | .ok (some toConsume) =>
    let acc2 := acc + toConsume
    match parse_literal (src.take (acc2 - 2)) with
    | .ok none =>
      match cmdParse (src.take acc2) with
      | some (cmd, rem) =>
        if rem.isEmpty then
          (⟨.readLine 0, maxsz⟩, src.drop acc2, .ok (some (.command cmd)))
        else
          (⟨.readLine acc2, maxsz⟩, src, .assertFailed)
      | none =>
        (⟨.readLine acc2, maxsz⟩, src.drop acc2, .err .commandParsingFailed)
    | .ok (some needed) =>
      if maxsz < needed then
        (⟨.readLine 0, maxsz⟩, src.drop acc2,
          .ok (some (.actionRequired (.sendLiteralReject needed))))
      else
        (⟨.readLiteral acc2 needed, maxsz⟩, src,
          .ok (some (.actionRequired (.sendLiteralAck needed))))
    | .error e =>
      (⟨.readLine 0, maxsz⟩, [], .err (.literal e))
  | .ok none =>
    (⟨.readLine acc, maxsz⟩, src, .ok none)
  | .error e =>
    (⟨.readLine 0, maxsz⟩, [], .err (.line e))

/-- The `Decoder::decode` impl.  The Rust `loop` is unrolled: the
`ReadLine` arm always returns, and the `ReadLiteral` arm either
returns `Ok(None)` or moves to `ReadLine` exactly once; so `decode`
either handles `ReadLine` directly or first skips the completed
literal body. -/
def decode (cmdParse : List Nat → Option (Command × List Nat))
    (codec : ImapServerCodec) (src : List Nat) :
    ImapServerCodec × List Nat × DecodeResult :=
  match codec.state with
  | .readLine toConsumeAcc => decodeReadLine cmdParse codec.maxLiteralSize toConsumeAcc src
  | .readLiteral toConsumeAcc needed =>
    if toConsumeAcc + needed ≤ src.length then
      decodeReadLine cmdParse codec.maxLiteralSize (toConsumeAcc + needed) src
    else
      (codec, src, .ok none)

-- ---------------------------------------------------------------------
-- Modelled grammar parser
-- ---------------------------------------------------------------------

/-- Lowercasing of one ASCII byte. -/
def asciiToLower (b : Nat) : Nat :=
  if 65 ≤ b && b ≤ 90 then b + 32 else b

/-- Modelled from the spec: the external grammar parser
`crate::command::command` is not in the sources; per §4.D it maps bytes
to a command plus the unconsumed tail, or fails.  This model recognizes
exactly the NOOP command shape `tag SP "noop" CRLF` (tag: non-empty,
no SP/CR/LF), consuming one command and returning the remaining bytes
as the tail. -/
def parse_command (input : List Nat) : Option (Command × List Nat) :=
  let tagBytes := input.takeWhile (fun b => b != 32)
  if tagBytes.isEmpty then none
  else if !(tagBytes.all (fun b => b != 13 && b != 10)) then none
  else
    let rest := input.drop (tagBytes.length + 1)
    if input.getD tagBytes.length 0 != 32 then none
    else if (rest.take 4).map asciiToLower != bytesOf "noop" then none
    else if (rest.drop 4).take 2 != bytesOf "\r\n" then none
    else some (⟨⟨tagBytes⟩, .noop⟩, rest.drop 6)

-- ---------------------------------------------------------------------
-- Shared helper lemmas
-- ---------------------------------------------------------------------

/-- Iterating `next` delivers exactly the stored fragments in order. -/
theorem Encoded.collectStream_eq (e : Encoded) : e.collectStream = e.items := by
  cases e with
  | mk items =>
    induction items with
    | nil =>
      rw [Encoded.collectStream]
      split
      · rfl
      · next f e2 heq => simp [Encoded.next] at heq
    | cons f rest ih =>
      rw [Encoded.collectStream]
      split
      · next heq => simp [Encoded.next] at heq
      · next f2 e2 heq =>
        simp only [Encoded.next, Option.some.injEq, Prod.mk.injEq] at heq
        rw [← heq.1, ← heq.2]
        simpa using ih

/-- Writing does not change the fragment list. -/
theorem EncodeContext.write_items (ctx : EncodeContext) (bs : List Nat) :
    (ctx.write bs).items = ctx.items := rfl

/-- After appending a non-empty byte sequence, `into_items` flushes the
accumulator as one final `Line` fragment. -/
theorem EncodeContext.into_items_write (ctx : EncodeContext) (bs : List Nat)
    (hbs : bs ≠ []) :
    (ctx.write bs).into_items = ctx.items ++ [Fragment.line (ctx.accumulator ++ bs)] := by
  unfold EncodeContext.write EncodeContext.into_items
  simp [List.isEmpty_iff, hbs]

/-- The fragment list of a context whose write of CRLF comes last: it
is non-empty and its final fragment is a `Line` ending in CRLF. -/
theorem into_items_write_crlf (ctx : EncodeContext) :
    (ctx.write (bytesOf "\r\n")).into_items ≠ [] ∧
    ∃ pre, ((ctx.write (bytesOf "\r\n")).into_items).getLast? =
      some (Fragment.line (pre ++ bytesOf "\r\n")) := by
  rw [EncodeContext.into_items_write ctx (bytesOf "\r\n") (by decide)]
  exact ⟨by simp, ctx.accumulator, List.getLast?_concat _⟩

-- ---------------------------------------------------------------------
-- Claim theorems
-- ---------------------------------------------------------------------

/-- C1: for every encodable message (command, greeting or response),
concatenating the byte payloads of the fragments in the order the
fragment stream delivers them equals the byte vector returned by
`dump`. -/
theorem fragment_concat_eq_dump :
    ∀ (c : Command) (g : Greeting) (r : Response),
      concatData c.encode.collectStream = c.encode.dump ∧
      concatData g.encode.collectStream = g.encode.dump ∧
      concatData r.encode.collectStream = r.encode.dump := by
  intro c g r
  refine ⟨?_, ?_, ?_⟩ <;> rw [Encoded.collectStream_eq] <;> rfl

/-- C10: debug-formatting a `Secret` is independent of the wrapped
value: it always produces exactly `[[REDACTED]]`, so any two secrets
have identical debug output.  (The companion constant-time comparison
promise is a timing property outside this embedding.) -/
theorem secret_debug_redacted :
    (∀ (α : Type) (x : α), (Secret.mk x).debug_fmt = "[[REDACTED]]") ∧
    (∀ (α : Type) (x y : Secret α), x.debug_fmt = y.debug_fmt) :=
  ⟨fun _ _ => rfl, fun _ _ _ => rfl⟩

/-- C8: for every command, greeting and response, the fragment
sequence produced by `encode` is non-empty and ends in a `Line`
fragment whose data contains the terminating CRLF (the root rule's
final CRLF write leaves a non-empty accumulator, which `into_items`
flushes as the last `Line`). -/
theorem stream_ends_with_line :
    ∀ (c : Command) (g : Greeting) (r : Response),
      (c.encode.items ≠ [] ∧
        ∃ pre, c.encode.items.getLast? = some (Fragment.line (pre ++ bytesOf "\r\n"))) ∧
      (g.encode.items ≠ [] ∧
        ∃ pre, g.encode.items.getLast? = some (Fragment.line (pre ++ bytesOf "\r\n"))) ∧
      (r.encode.items ≠ [] ∧
        ∃ pre, r.encode.items.getLast? = some (Fragment.line (pre ++ bytesOf "\r\n"))) := by
  intro c g r
  refine ⟨into_items_write_crlf _, into_items_write_crlf _, ?_⟩
  cases r with
  | status s => cases s <;> exact into_items_write_crlf _
  | data d => exact into_items_write_crlf _
  | continueReq con =>
    cases con with
    | basic b =>
      obtain ⟨code, text⟩ := b
      cases code with
      | some cd =>
        have := into_items_write_crlf
          (text.encode_ctx ((cd.encode_ctx (EncodeContext.new.write (bytesOf "+ ["))).write
            (bytesOf "] ")))
        exact this
      | none =>
        have := into_items_write_crlf (text.encode_ctx (EncodeContext.new.write (bytesOf "+ ")))
        exact this
    | base64 data =>
      have := into_items_write_crlf
        ((EncodeContext.new.write (bytesOf "+ ")).write (base64Encode data))
      exact this

/-- C2: the literal rule writes the announcement (`{N}` or `{N+}` in
NonSync mode) followed by CRLF, pushes the accumulator as a `Line`
fragment, writes the body bytes, and pushes them as a `Literal`
fragment carrying the mode; no terminal (leaf) encoding rule pushes a
fragment (each leaves the fragment list unchanged); and encoding
`Command{tag="A", body=LOGIN("alice", literal 0xCA 0xFE)}` with a Sync
literal yields exactly the fragments `Line "A LOGIN alice {2}\r\n"`,
`Literal (Sync) 0xCA 0xFE`, `Line "\r\n"`. -/
theorem literal_rule_fragments :
    (∀ (l : Literal) (ctx : EncodeContext),
      (l.encode_ctx ctx).items =
        ctx.items ++
          [Fragment.line (ctx.accumulator ++ [123] ++ natDecimal l.data.length ++
            (match l.mode with | .sync => [125] | .nonSync => [43, 125]) ++ bytesOf "\r\n"),
           Fragment.literal l.data l.mode] ∧
      (l.encode_ctx ctx).accumulator = []) ∧
    ((∀ (x : Nat) (ctx : EncodeContext), (encodeU32 x ctx).items = ctx.items) ∧
     (∀ (x : Nat) (ctx : EncodeContext), (encodeU64 x ctx).items = ctx.items) ∧
     (∀ (x : Nat) (ctx : EncodeContext), (encodeNonZeroU32 x ctx).items = ctx.items) ∧
     (∀ (x : Tag) (ctx : EncodeContext), (x.encode_ctx ctx).items = ctx.items) ∧
     (∀ (x : Atom) (ctx : EncodeContext), (x.encode_ctx ctx).items = ctx.items) ∧
     (∀ (x : AtomExt) (ctx : EncodeContext), (x.encode_ctx ctx).items = ctx.items) ∧
     (∀ (x : Quoted) (ctx : EncodeContext), (x.encode_ctx ctx).items = ctx.items) ∧
     (∀ (x : Text) (ctx : EncodeContext), (x.encode_ctx ctx).items = ctx.items) ∧
     (∀ (x : ListCharString) (ctx : EncodeContext), (x.encode_ctx ctx).items = ctx.items) ∧
     (∀ (x : CodeOther) (ctx : EncodeContext), (x.encode_ctx ctx).items = ctx.items) ∧
     (∀ (x : QuotedChar) (ctx : EncodeContext), (x.encode_ctx ctx).items = ctx.items) ∧
     (∀ (x : StatusDataItemName) (ctx : EncodeContext), (x.encode_ctx ctx).items = ctx.items) ∧
     (∀ (x : FlagExtension) (ctx : EncodeContext), (x.encode_ctx ctx).items = ctx.items) ∧
     (∀ (x : Flag) (ctx : EncodeContext), (x.encode_ctx ctx).items = ctx.items) ∧
     (∀ (x : FlagFetch) (ctx : EncodeContext), (x.encode_ctx ctx).items = ctx.items) ∧
     (∀ (x : FlagPerm) (ctx : EncodeContext), (x.encode_ctx ctx).items = ctx.items) ∧
     (∀ (x : FlagNameAttribute) (ctx : EncodeContext), (x.encode_ctx ctx).items = ctx.items) ∧
     (∀ (x : SeqOrUid) (ctx : EncodeContext), (x.encode_ctx ctx).items = ctx.items) ∧
     (∀ (x : NaiveDate) (ctx : EncodeContext), (x.encode_ctx ctx).items = ctx.items) ∧
     (∀ (x : DateTime) (ctx : EncodeContext), (x.encode_ctx ctx).items = ctx.items) ∧
     (∀ (x : Macro) (ctx : EncodeContext), (x.encode_ctx ctx).items = ctx.items) ∧
     (∀ (x : AuthMechanism) (ctx : EncodeContext), (x.encode_ctx ctx).items = ctx.items) ∧
     (∀ (x : Capability) (ctx : EncodeContext), (x.encode_ctx ctx).items = ctx.items) ∧
     (∀ (x : GreetingKind) (ctx : EncodeContext), (x.encode_ctx ctx).items = ctx.items)) ∧
    (Command.encode
        ⟨⟨bytesOf "A"⟩, .login (.atom ⟨bytesOf "alice"⟩)
          ⟨.string (.literal ⟨[0xCA, 0xFE], .sync⟩)⟩⟩).items =
      [Fragment.line (bytesOf "A LOGIN alice \x7b2\x7d\r\n"),
       Fragment.literal [0xCA, 0xFE] .sync,
       Fragment.line (bytesOf "\r\n")] := by
  refine ⟨?_, ?_, by rfl⟩
  · intro l ctx
    cases hm : l.mode <;>
      simp [Literal.encode_ctx, hm, EncodeContext.write, EncodeContext.push_line,
        EncodeContext.push_literal]
  · refine ⟨?_, ?_, ?_, ?_, ?_, ?_, ?_, ?_, ?_, ?_, ?_, ?_, ?_, ?_, ?_, ?_, ?_, ?_, ?_,
      ?_, ?_, ?_, ?_, ?_⟩ <;>
      intro x ctx <;>
      first
        | rfl
        | (unfold QuotedChar.encode_ctx
           split
           · rfl
           · split <;> rfl)
        | (cases x <;> first
            | rfl
            | (rename_i f
               cases f <;> rfl))

/-- C3: when the decoder completes a line that carries a well-formed
literal announcement `{N}`, it rejects (consuming the framed bytes
through the end of that line and resetting to `ReadLine{0}`) when `N`
exceeds `max_literal_size`, and otherwise (including `N` equal to the
maximum) acknowledges, entering `ReadLiteral` with `needed = N` and
leaving the buffer contents in place. -/
theorem literal_announcement_handling
    (cmdParse : List Nat → Option (Command × List Nat)) (sz acc n needed : Nat)
    (src : List Nat)
    (h1 : find_crlf_inclusive acc src = .ok (some n))
    (h2 : parse_literal (src.take (acc + n - 2)) = .ok (some needed)) :
    decode cmdParse ⟨.readLine acc, sz⟩ src =
      if sz < needed then
        (⟨.readLine 0, sz⟩, src.drop (acc + n),
          .ok (some (.actionRequired (.sendLiteralReject needed))))
      else
        (⟨.readLiteral (acc + n) needed, sz⟩, src,
          .ok (some (.actionRequired (.sendLiteralAck needed)))) := by
  simp only [decode, decodeReadLine, h1, h2]

/-- Witness for C3 at scenario S7: input `a login {999999}\r\n` with
`max_literal_size = 1024` yields `SendLiteralReject(999999)`, consumes
the line, and resets the state to `ReadLine{0}`. -/
theorem literal_announcement_handling_witness :
    find_crlf_inclusive 0 (bytesOf "a login \x7b999999\x7d\r\n") = .ok (some 18) ∧
    parse_literal ((bytesOf "a login \x7b999999\x7d\r\n").take (0 + 18 - 2)) =
      .ok (some 999999) ∧
    decode parse_command ⟨.readLine 0, 1024⟩ (bytesOf "a login \x7b999999\x7d\r\n") =
      (⟨.readLine 0, 1024⟩, [],
        .ok (some (.actionRequired (.sendLiteralReject 999999)))) := by
  refine ⟨by rfl, by rfl, ?_⟩
  have h := literal_announcement_handling parse_command 1024 0 18 999999
    (bytesOf "a login \x7b999999\x7d\r\n") (by rfl) (by rfl)
  simpa using h

/-- Auxiliary: `findIdx?` returns the first index satisfying the
predicate. -/
theorem findIdx?_eq_some_of_first {α : Type} (p : α → Bool) (d : α) :
    ∀ (l : List α) (n : Nat), n < l.length → p (l.getD n d) = true →
      (∀ j, j < n → p (l.getD j d) = false) → l.findIdx? p = some n := by
  intro l
  induction l with
  | nil =>
    intro n hn _ _
    simp at hn
  | cons x xs ih =>
    intro n hn hp hfirst
    cases n with
    | zero =>
      rw [List.findIdx?_cons]
      simp only [List.getD_cons_zero] at hp
      simp [hp]
    | succ m =>
      have hx : p x = false := by simpa using hfirst 0 (Nat.succ_pos m)
      rw [List.findIdx?_cons]
      simp only [hx, if_false]
      have := ih m (by simpa using hn) (by simpa using hp)
        (fun j hj => by simpa using hfirst (j + 1) (by omega))
      simp [this]

/-- Auxiliary: `getD` through `drop`. -/
theorem getD_drop {α : Type} (l : List α) (i j : Nat) (d : α) :
    (l.drop i).getD j d = l.getD (i + j) d := by
  simp [List.getD_eq_getElem?_getD, List.getElem?_drop]

/-- Auxiliary: a first LF at index `i ≥ skip` whose preceding byte is
missing or not CR makes `find_crlf_inclusive` fail. -/
theorem find_crlf_notCrLf (skip i : Nat) (src : List Nat)
    (hi : skip ≤ i) (hlen : i < src.length) (hLF : src.getD i 0 = 10)
    (hfirst : ∀ j, skip ≤ j → j < i → src.getD j 0 ≠ 10)
    (hpre : i = 0 ∨ src.getD (i - 1) 0 ≠ 13) :
    find_crlf_inclusive skip src = .error .notCrLf := by
  have hdrop : (src.drop skip).findIdx? (fun item => item == 10) = some (i - skip) := by
    apply findIdx?_eq_some_of_first (d := 0)
    · simpa [List.length_drop] using (by omega : i - skip < src.length - skip)
    · rw [getD_drop]
      have : skip + (i - skip) = i := by omega
      rw [this, hLF]
      decide
    · intro j hj
      rw [getD_drop]
      have := hfirst (skip + j) (by omega) (by omega)
      simpa using this
  unfold find_crlf_inclusive
  rw [hdrop]
  have hcheck : src.getD (skip + (i - skip - 1)) 0 ≠ 13 := by
    rcases Nat.eq_or_lt_of_le hi with heq | hlt
    · have : skip + (i - skip - 1) = i := by omega
      rw [this, hLF]
      decide
    · have : skip + (i - skip - 1) = i - 1 := by omega
      rw [this]
      rcases hpre with h0 | hne
      · omega
      · exact hne
  simp only [List.getD_eq_getElem?_getD] at hcheck
  simp [hcheck]

/-- Auxiliary: the backward brace scan fails when no `{` occurs below
the start index. -/
theorem scanOpenBrace_error (line : List Nat) :
    ∀ (k : Nat), (∀ j, j < k → line.getD j 0 ≠ 123) →
      scanOpenBrace line k = .error .noOpeningBrace := by
  intro k
  induction k with
  | zero => intro _; rfl
  | succ m ih =>
    intro h
    unfold scanOpenBrace
    have hm : line.getD m 0 ≠ 123 := h m (Nat.lt_succ_self m)
    simp only [beq_iff_eq, hm, if_false]
    exact ih (fun j hj => h j (by omega))

/-- Auxiliary: the backward brace scan finds the rightmost `{` below
the start index. -/
theorem scanOpenBrace_found (line : List Nat) (k : Nat) :
    ∀ (start : Nat), k < start → (∀ j, k < j → j < start → line.getD j 0 ≠ 123) →
      line.getD k 0 = 123 →
      scanOpenBrace line start =
        .ok (some (sliceBytes line (k + 1) (line.length - 1))) := by
  intro start
  induction start with
  | zero =>
    intro hk
    omega
  | succ m ih =>
    intro hk hnone hbrace
    unfold scanOpenBrace
    rcases Nat.eq_or_lt_of_le (Nat.lt_succ_iff.mp hk) with heq | hlt
    · subst heq
      have hb := hbrace
      simp only [List.getD_eq_getElem?_getD] at hb
      simp [hb]
    · have hm : line.getD m 0 ≠ 123 := hnone m hlt (Nat.lt_succ_self m)
      simp only [beq_iff_eq, hm, if_false]
      exact ih hlt (fun j hj1 hj2 => hnone j hj1 (by omega)) hbrace

/-- Auxiliary: facts extracted from a `getLast?` equation: the list is
non-empty and its final element is the given value. -/
theorem getLast?_facts (region : List Nat) (v : Nat) (hlast : region.getLast? = some v) :
    region ≠ [] ∧ region.getD (region.length - 1) 0 = v := by
  constructor
  · intro h
    subst h
    simp at hlast
  · rw [List.getD_eq_getElem?_getD, ← List.getLast?_eq_getElem?, hlast]
    rfl

/-- Auxiliary: a completed line ending in `}` with no `{` before it
parses to `NoOpeningBrace`. -/
theorem parse_literal_noBrace (region : List Nat)
    (hlast : region.getLast? = some 125)
    (hnob : ∀ j, j < region.length - 1 → region.getD j 0 ≠ 123) :
    parse_literal region = .error .noOpeningBrace := by
  obtain ⟨hne, h125⟩ := getLast?_facts region 125 hlast
  have hlen : region.length ≠ 0 := by simpa using hne
  have hscan := scanOpenBrace_error region (region.length - 1) hnob
  unfold parse_literal parse_literal_enclosing
  simp only [List.getD_eq_getElem?_getD] at h125
  simp [hlen, h125, hscan]

/-- Auxiliary: a completed line ending in `}` whose last `{` encloses
bytes rejected by `from_str_radix` parses to `BadNumber`. -/
theorem parse_literal_badNumber (region : List Nat) (k : Nat)
    (hlast : region.getLast? = some 125)
    (hk : k < region.length - 1)
    (hbrace : region.getD k 0 = 123)
    (hnone : ∀ j, k < j → j < region.length - 1 → region.getD j 0 ≠ 123)
    (hnum : fromStrRadix10 (sliceBytes region (k + 1) (region.length - 1)) = none) :
    parse_literal region = .error .badNumber := by
  obtain ⟨hne, h125⟩ := getLast?_facts region 125 hlast
  have hlen : region.length ≠ 0 := by simpa using hne
  have hscan := scanOpenBrace_found region k (region.length - 1) hk hnone hbrace
  unfold parse_literal parse_literal_enclosing
  simp only [List.getD_eq_getElem?_getD] at h125
  simp [hlen, h125, hscan, hnum]

/-- Auxiliary: a framing error on the line terminator clears the
buffer, resets the state, and surfaces the `Line` error. -/
theorem decode_line_error (cmdParse : List Nat → Option (Command × List Nat))
    (sz acc : Nat) (src : List Nat) (e : LineKind)
    (h : find_crlf_inclusive acc src = .error e) :
    decode cmdParse ⟨.readLine acc, sz⟩ src = (⟨.readLine 0, sz⟩, [], .err (.line e)) := by
  simp [decode, decodeReadLine, h]

/-- Auxiliary: a literal-announcement error on a completed line clears
the buffer, resets the state, and surfaces the `Literal` error. -/
theorem decode_literal_error (cmdParse : List Nat → Option (Command × List Nat))
    (sz acc n : Nat) (src : List Nat) (e : LiteralKind)
    (h1 : find_crlf_inclusive acc src = .ok (some n))
    (h2 : parse_literal (src.take (acc + n - 2)) = .error e) :
    decode cmdParse ⟨.readLine acc, sz⟩ src = (⟨.readLine 0, sz⟩, [], .err (.literal e)) := by
  simp [decode, decodeReadLine, h1, h2]

/-- C6 (amended): framing errors are fatal and atomic on the buffer.
If the decoder finds an LF whose preceding byte is absent or not CR,
it clears the entire buffer, resets to `ReadLine{0}`, and returns the
`Line(NotCrLf)` error.  If a completed line ends in `}` with no
matching `{`, it likewise clears, resets, and returns
`Literal(NoOpeningBrace)`.  If the bytes between the last `{` and the
final `}` are not accepted by `u32::from_str_radix` (an optional
leading `+`, then ASCII decimal digits whose value fits in `u32`), it
clears, resets, and returns `Literal(BadNumber)`. -/
theorem framing_errors_fatal (cmdParse : List Nat → Option (Command × List Nat))
    (sz acc : Nat) (src : List Nat) :
    (∀ i, acc ≤ i → i < src.length → src.getD i 0 = 10 →
      (∀ j, acc ≤ j → j < i → src.getD j 0 ≠ 10) →
      (i = 0 ∨ src.getD (i - 1) 0 ≠ 13) →
      decode cmdParse ⟨.readLine acc, sz⟩ src =
        (⟨.readLine 0, sz⟩, [], .err (.line .notCrLf))) ∧
    (∀ n, find_crlf_inclusive acc src = .ok (some n) →
      ∀ region, region = src.take (acc + n - 2) →
      region.getLast? = some 125 →
      (∀ j, j < region.length - 1 → region.getD j 0 ≠ 123) →
      decode cmdParse ⟨.readLine acc, sz⟩ src =
        (⟨.readLine 0, sz⟩, [], .err (.literal .noOpeningBrace))) ∧
    (∀ n k, find_crlf_inclusive acc src = .ok (some n) →
      ∀ region, region = src.take (acc + n - 2) →
      region.getLast? = some 125 →
      k < region.length - 1 →
      region.getD k 0 = 123 →
      (∀ j, k < j → j < region.length - 1 → region.getD j 0 ≠ 123) →
      fromStrRadix10 (sliceBytes region (k + 1) (region.length - 1)) = none →
      decode cmdParse ⟨.readLine acc, sz⟩ src =
        (⟨.readLine 0, sz⟩, [], .err (.literal .badNumber))) := by
  refine ⟨?_, ?_, ?_⟩
  · intro i hi hlen hLF hfirst hpre
    exact decode_line_error cmdParse sz acc src .notCrLf
      (find_crlf_notCrLf acc i src hi hlen hLF hfirst hpre)
  · intro n h1 region hreg hlast hnob
    subst hreg
    exact decode_literal_error cmdParse sz acc n src .noOpeningBrace h1
      (parse_literal_noBrace _ hlast hnob)
  · intro n k h1 region hreg hlast hk hbrace hnone hnum
    subst hreg
    exact decode_literal_error cmdParse sz acc n src .badNumber h1
      (parse_literal_badNumber _ k hlast hk hbrace hnone hnum)

/-- Counterexample to C6 as stated: in the buffer `a {+5}\r\n` the
bytes between the braces are `+5`, which are not valid ASCII decimal
digits, yet `decode` does not return `Literal(BadNumber)` and does not
clear the buffer: `u32::from_str_radix` accepts the leading `+`, so
the decoder acknowledges a 5-byte literal and leaves the buffer in
place. -/
theorem framing_errors_plus_digit_counterexample :
    ((bytesOf "+5").all isAsciiDigit = false) ∧
    decode parse_command ⟨.readLine 0, 1024⟩ (bytesOf "a \x7b+5\x7d\r\n") =
      (⟨.readLiteral 8 5, 1024⟩, bytesOf "a \x7b+5\x7d\r\n",
        .ok (some (.actionRequired (.sendLiteralAck 5)))) :=
  ⟨by decide, by rfl⟩

/-- Witness for C6 (amended) at scenario S6: the bare-LF input `a\n`
produces `Line(NotCrLf)` with a cleared buffer and reset state. -/
theorem framing_errors_fatal_witness :
    ((bytesOf "a\n").getD 1 0 = 10 ∧ (1 = 0 ∨ (bytesOf "a\n").getD 0 0 ≠ 13)) ∧
    decode parse_command ⟨.readLine 0, 1024⟩ (bytesOf "a\n") =
      (⟨.readLine 0, 1024⟩, [], .err (.line .notCrLf)) := by
  refine ⟨⟨by decide, by decide⟩, ?_⟩
  exact (framing_errors_fatal parse_command 1024 0 (bytesOf "a\n")).1 1
    (by decide) (by decide) (by decide)
    (by intro j h1 h2; interval_cases j <;> decide)
    (by decide)

/-- Auxiliary: the `ReadLine` step leaves the buffer untouched
whenever it asks for more data. -/
theorem decodeReadLine_none_preserves (cmdParse : List Nat → Option (Command × List Nat))
    (maxsz acc : Nat) (src : List Nat)
    (h : (decodeReadLine cmdParse maxsz acc src).2.2 = DecodeResult.ok none) :
    (decodeReadLine cmdParse maxsz acc src).2.1 = src := by
  unfold decodeReadLine at h ⊢
  cases hf : find_crlf_inclusive acc src with
  | error e => simp [hf] at h
  | ok o =>
    cases o with
    | none => simp [hf]
    | some n =>
      cases hp : parse_literal (src.take (acc + n - 2)) with
      | error e => simp [hf, hp] at h
      | ok po =>
        cases po with
        | none =>
          cases hc : cmdParse (src.take (acc + n)) with
          | none => simp [hf, hp, hc] at h
          | some pr =>
            obtain ⟨cmd, rem⟩ := pr
            by_cases hr : rem.isEmpty <;> simp [hf, hp, hc, hr] at h
        | some needed =>
          by_cases hm : maxsz < needed <;> simp [hf, hp, hm] at h

/-- C7: whenever `decode` returns `Ok(None)` (more bytes needed), the
buffer contents after the call are exactly the buffer contents before
it; only the internal bookkeeping may change. -/
theorem no_consumption_on_none (cmdParse : List Nat → Option (Command × List Nat))
    (codec : ImapServerCodec) (src : List Nat)
    (h : (decode cmdParse codec src).2.2 = DecodeResult.ok none) :
    (decode cmdParse codec src).2.1 = src := by
  obtain ⟨st, sz⟩ := codec
  cases st with
  | readLine acc => exact decodeReadLine_none_preserves cmdParse sz acc src h
  | readLiteral c k =>
    by_cases hle : c + k ≤ src.length
    · have heq : decode cmdParse ⟨.readLiteral c k, sz⟩ src =
          decodeReadLine cmdParse sz (c + k) src := by
        simp [decode, hle]
      rw [heq] at h ⊢
      exact decodeReadLine_none_preserves cmdParse sz (c + k) src h
    · simp [decode, hle]

/-- Witness for C7: an incomplete line makes `decode` return
`Ok(None)` and keeps the buffer intact. -/
theorem no_consumption_on_none_witness :
    (decode parse_command (ImapServerCodec.new 1024) (bytesOf "a noop")).2.2 =
      DecodeResult.ok none ∧
    (decode parse_command (ImapServerCodec.new 1024) (bytesOf "a noop")).2.1 =
      bytesOf "a noop" :=
  ⟨by rfl, no_consumption_on_none parse_command (ImapServerCodec.new 1024)
    (bytesOf "a noop") (by rfl)⟩

/-- C9: literal bodies are opaque to the framer.  In state
`ReadLiteral{c, k}`, `decode` returns `Ok(None)` without touching
state or buffer until the buffer holds at least `c + k` bytes; once it
does, decoding proceeds exactly as from `ReadLine{c + k}`, and the
line scan from position `c + k` is independent of the first `c + k`
bytes — CR or LF bytes inside the literal body neither complete a
line nor raise a framing error. -/
theorem literal_body_not_scanned (cmdParse : List Nat → Option (Command × List Nat))
    (sz c k : Nat) (src : List Nat) :
    (src.length < c + k →
      decode cmdParse ⟨.readLiteral c k, sz⟩ src =
        (⟨.readLiteral c k, sz⟩, src, DecodeResult.ok none)) ∧
    (c + k ≤ src.length →
      decode cmdParse ⟨.readLiteral c k, sz⟩ src =
        decode cmdParse ⟨.readLine (c + k), sz⟩ src) ∧
    (∀ pre1 pre2 suf : List Nat, pre1.length = c + k → pre2.length = c + k →
      find_crlf_inclusive (c + k) (pre1 ++ suf) =
        find_crlf_inclusive (c + k) (pre2 ++ suf)) := by
  refine ⟨?_, ?_, ?_⟩
  · intro hlt
    simp [decode, Nat.not_le.mpr hlt]
  · intro hle
    simp [decode, hle]
  · intro pre1 pre2 suf h1 h2
    have hd1 : (pre1 ++ suf).drop (c + k) = suf := by
      rw [← h1]
      exact List.drop_left pre1 suf
    have hd2 : (pre2 ++ suf).drop (c + k) = suf := by
      rw [← h2]
      exact List.drop_left pre2 suf
    unfold find_crlf_inclusive
    rw [hd1, hd2]
    cases hfind : suf.findIdx? (fun item => item == 10) with
    | none => rfl
    | some position =>
      have hg1 : (pre1 ++ suf).getD (c + k + (position - 1)) 0 =
          suf.getD (position - 1) 0 := by
        rw [List.getD_eq_getElem?_getD, List.getD_eq_getElem?_getD,
          List.getElem?_append_right (by omega)]
        have hidx : c + k + (position - 1) - pre1.length = position - 1 := by omega
        rw [hidx]
      have hg2 : (pre2 ++ suf).getD (c + k + (position - 1)) 0 =
          suf.getD (position - 1) 0 := by
        rw [List.getD_eq_getElem?_getD, List.getD_eq_getElem?_getD,
          List.getElem?_append_right (by omega)]
        have hidx : c + k + (position - 1) - pre2.length = position - 1 := by omega
        rw [hidx]
      simp only [hg1, hg2]

/-- Witness for C9: a decoder awaiting a 5-byte literal at offset 13
returns `Ok(None)` on a 16-byte buffer, steps to the `ReadLine{18}`
behavior on an 18-byte buffer, and the line scan after the literal
ignores the literal bytes. -/
theorem literal_body_not_scanned_witness :
    ((bytesOf "a login \x7b5\x7d\r\nali").length < 13 + 5 ∧
      decode parse_command ⟨.readLiteral 13 5, 1024⟩ (bytesOf "a login \x7b5\x7d\r\nali") =
        (⟨.readLiteral 13 5, 1024⟩, bytesOf "a login \x7b5\x7d\r\nali",
          DecodeResult.ok none)) ∧
    (13 + 5 ≤ (bytesOf "a login \x7b5\x7d\r\nalice").length ∧
      decode parse_command ⟨.readLiteral 13 5, 1024⟩ (bytesOf "a login \x7b5\x7d\r\nalice") =
        decode parse_command ⟨.readLine 18, 1024⟩ (bytesOf "a login \x7b5\x7d\r\nalice")) ∧
    find_crlf_inclusive 18 (List.replicate 18 13 ++ bytesOf "x\r\n") =
      find_crlf_inclusive 18 (List.replicate 18 10 ++ bytesOf "x\r\n") := by
  refine ⟨⟨by decide, ?_⟩, ⟨by decide, ?_⟩, ?_⟩
  · exact (literal_body_not_scanned parse_command 1024 13 5
      (bytesOf "a login \x7b5\x7d\r\nali")).1 (by decide)
  · exact (literal_body_not_scanned parse_command 1024 13 5
      (bytesOf "a login \x7b5\x7d\r\nalice")).2.1 (by decide)
  · exact (literal_body_not_scanned parse_command 1024 13 5
      (bytesOf "irrelevant")).2.2 (List.replicate 18 13) (List.replicate 18 10)
      (bytesOf "x\r\n") (by decide) (by decide)

/-- C4 (code bug): after a `CommandParsingFailed`, the decoder's
`to_consume_acc` is NOT reset to 0 (only the success arm resets it),
so the decoder does not continue normally.  Concretely: a fresh
decoder fed the invalid line `xxxxxxxxxx\r\n` discards the framed 12
bytes and returns the error but keeps `ReadLine{12}`; appending the
valid command `a noop\r\n` (8 bytes) then yields `Ok(None)` — the
stale skip offset hides the new line terminator — whereas a fresh
decoder on the same bytes yields the parsed command. -/
theorem parse_error_stale_state :
    decode parse_command (ImapServerCodec.new 1024) (bytesOf "xxxxxxxxxx\r\n") =
      (⟨.readLine 12, 1024⟩, [], .err .commandParsingFailed) ∧
    decode parse_command ⟨.readLine 12, 1024⟩ (bytesOf "a noop\r\n") =
      (⟨.readLine 12, 1024⟩, bytesOf "a noop\r\n", DecodeResult.ok none) ∧
    decode parse_command (ImapServerCodec.new 1024) (bytesOf "a noop\r\n") =
      (⟨.readLine 0, 1024⟩, [],
        .ok (some (.command ⟨⟨bytesOf "a"⟩, .noop⟩))) :=
  ⟨by rfl, by rfl, by rfl⟩

/-- C5 (code bug): the `assert!(rem.is_empty())` inside `decode` can
fail in a reachable state.  After the parse failure of
`xxxxxxxxxx\r\n` the state is `ReadLine{12}` with an empty buffer;
feeding the two valid commands `a noop\r\nb noop\r\n` in one chunk
makes the stale offset frame both lines as one input, on which the
parser succeeds with the non-empty remainder `b noop\r\n`, so the
assertion fires. -/
theorem assert_rem_empty_fails :
    decode parse_command (ImapServerCodec.new 1024) (bytesOf "xxxxxxxxxx\r\n") =
      (⟨.readLine 12, 1024⟩, [], .err .commandParsingFailed) ∧
    parse_command (bytesOf "a noop\r\nb noop\r\n") =
      some (⟨⟨bytesOf "a"⟩, .noop⟩, bytesOf "b noop\r\n") ∧
    decode parse_command ⟨.readLine 12, 1024⟩ (bytesOf "a noop\r\nb noop\r\n") =
      (⟨.readLine 16, 1024⟩, bytesOf "a noop\r\nb noop\r\n", .assertFailed) :=
  ⟨by rfl, by rfl, by rfl⟩
end ImapCodec
